import Mathlib

/-!
# pushgateway: JSON push adapters (`handler/rbd_push.go`, `handler/telecom5_push.go`)

A shallow embedding of the two JSON-to-exposition-text adapters and of the
renderer they share, followed by theorems about them.

Conventions of the embedding

* Go `string` and `[]byte` are Lean `String`.
* Go `float64` is `Float64`, the IEEE-754 binary64 bit pattern.  The program
  never computes with a metric value; it only prints it with the `%v` verb of
  `fmt.Sprintf`.  That verb lives in Go's standard library, so it is taken as a
  parameter `fmtV : Float64 → String` of every definition that prints.
* `fmt.Sprintf` with `%s` verbs is string concatenation.
* `ffjson.Unmarshal` is library code as well and is a parameter of the parsers;
  the statements on what the structured decode yields use `unmarshalRbdPushReq`,
  a model of it written from the specification.
* A Go `map` is the list of its entries; the sequence in which a `range` loop
  visits them is chosen by the runtime and is a parameter (`rangeOrder`).
-/

namespace Pushgateway

/-! ## Data model (`rbd_push.go`, lines 30-47) -/

/-- Go `float64`, kept as its IEEE-754 binary64 bit pattern. -/
structure Float64 where
  bits : Nat
deriving DecidableEq, Repr

/-- Metric in a request body (`type Metric struct`). -/
structure Metric where
  MetricName : String
  MetricValue : Float64
  MetricType : String
deriving DecidableEq, Repr

/-- Label in a request body (`type Label struct`). -/
structure Label where
  Key : String
  Value : String
deriving DecidableEq, Repr

/-- The request body (`type RbdPushReq struct`). -/
structure RbdPushReq where
  Metrics : List Metric
  Labels : List Label
deriving DecidableEq, Repr

/-- The float64 constants of the repository's tests and of the sentinel metric:
`3.14`, `2398.283`, `-1` and `0`. -/
def f64_3_14 : Float64 := ⟨0x40091EB851EB851F⟩

def f64_2398_283 : Float64 := ⟨0x40A2BC90E5604189⟩

def f64_neg1 : Float64 := ⟨0xBFF0000000000000⟩

def f64_zero : Float64 := ⟨0⟩

/-! ## Go library functions used by the renderer -/

/-- Go `strings.Join(elems, sep)`. -/
def stringsJoin : List String → String → String
  | [], _ => ""
  | [a], _ => a
  | a :: b :: rest, sep => a ++ sep ++ stringsJoin (b :: rest) sep

/-! ## The renderer (`rbd_push.go`, lines 115-141) -/

/-- Lines 116-120 of `convertRbdPushReq2Text`: the loop that collects one
`key="value"` text per label, then `strings.Join(labelTexts, ",")`. -/
def labelText (labels : List Label) : String :=
  let labelTexts : List String :=
    labels.foldl (fun acc label => acc ++ [label.Key ++ "=\"" ++ label.Value ++ "\""]) []
  stringsJoin labelTexts ","

/-- Lines 124-127: `typeText` of one metric. -/
def typeText (metric : Metric) : String :=
  if metric.MetricType ≠ "" then
    "# TYPE " ++ metric.MetricName ++ " " ++ metric.MetricType ++ "\n"
  else ""

/-- Lines 129-134: `metricText` of one metric, given the joined label text. -/
def metricText (fmtV : Float64 → String) (labelText : String) (metric : Metric) : String :=
  if labelText.length = 0 then
    typeText metric ++ metric.MetricName ++ " " ++ fmtV metric.MetricValue ++ "\n"
  else
    typeText metric ++ metric.MetricName ++ "\x7b" ++ labelText ++ "\x7d "
      ++ fmtV metric.MetricValue ++ "\n"

/-- The function `convertRbdPushReq2Text`: label text, then the loop over the
metrics appending one text per metric, then `strings.Join(metricTexts, "")`. -/
def convertRbdPushReq2Text (fmtV : Float64 → String) (req : RbdPushReq) : String :=
  let lt := labelText req.Labels
  let metricTexts : List String :=
    req.Metrics.foldl (fun acc metric => acc ++ [metricText fmtV lt metric]) []
  stringsJoin metricTexts ""

/-! ## The flat parser (`telecom5_push.go`, lines 100-153) -/

/-- A decoded JSON value, as `ffjson.Unmarshal` stores it in an `interface{}`:
`nil`, `bool`, `float64`, `string`, `[]interface{}` or `map[string]interface{}`. -/
inductive JsonValue where
  | null : JsonValue
  | bool (b : Bool) : JsonValue
  | number (val : Float64) : JsonValue
  | string (val : String) : JsonValue
  | array (items : List JsonValue) : JsonValue
  | object (fields : List (String × JsonValue)) : JsonValue

/-- A Go `map[string]interface{}`: its entries.  The order of the list carries
no meaning for the program, which reaches the entries only through `range`. -/
abbrev GoMap := List (String × JsonValue)

/-- The errors `telecom5BodyToRbdPushReq` returns: the wrapped decoding error
of line 103, or the package variable `ErrEmptyMetricNotAllowed`. -/
inductive Telecom5Error where
  | convertBody (msg : String) : Telecom5Error
  | ErrEmptyMetricNotAllowed : Telecom5Error
deriving DecidableEq, Repr

instance instDecidableEqExcept {ε α : Type} [DecidableEq ε] [DecidableEq α] :
    DecidableEq (Except ε α) := fun x y =>
  match x, y with
  | Except.error a, Except.error b =>
    if h : a = b then isTrue (by rw [h]) else isFalse (fun h2 => h (Except.error.inj h2))
  | Except.ok a, Except.ok b =>
    if h : a = b then isTrue (by rw [h]) else isFalse (fun h2 => h (Except.ok.inj h2))
  | Except.error _, Except.ok _ => isFalse (fun h => Except.noConfusion h)
  | Except.ok _, Except.error _ => isFalse (fun h => Except.noConfusion h)

/-- The sentinel metric of lines 107-110 (`MetricType` is left at its zero
value, the empty string). -/
def fbmetric : Metric :=
  { MetricName := "foobar", MetricValue := f64_neg1, MetricType := "" }

/-- One pass of the loop body of lines 112-131 on the entry `(key, value)`:
the two type assertions `value.(float64)` and `value.(string)`, in this
order, each followed by `continue`. -/
def classifyEntry (acc : List Metric × List Label) (entry : String × JsonValue) :
    List Metric × List Label :=
  match entry.2 with
  | JsonValue.number val =>
    (acc.1 ++ [{ MetricName := entry.1, MetricValue := val, MetricType := "" }], acc.2)
  | JsonValue.string val =>
    (acc.1, acc.2 ++ [{ Key := entry.1, Value := val }])
  | _ => acc

/-- Lines 106-131: the loop over the entries in the sequence `visit` in which
`range m` yields them, starting from the two nil slices. -/
def classify (visit : List (String × JsonValue)) : List Metric × List Label :=
  visit.foldl classifyEntry ([], [])

/-- Lines 133-152: assembly of the result from the two collected slices. -/
def assemble (metrics : List Metric) (fblabels : List Label) :
    Except Telecom5Error (List RbdPushReq) :=
  let res : List RbdPushReq := []
  let res := if metrics.length > 0 then res ++ [{ Metrics := metrics, Labels := [] }] else res
  let res :=
    if fblabels.length > 0 then res ++ [{ Metrics := [fbmetric], Labels := fblabels }] else res
  if res.length = 0 then Except.error Telecom5Error.ErrEmptyMetricNotAllowed
  else Except.ok res

/-- The function `telecom5BodyToRbdPushReq`.  `unmarshalMap` is
`ffjson.Unmarshal(body, &m)` for `m : map[string]interface{}` (the decoded
map or the error text); `rangeOrder m` is the sequence in which the runtime
makes `range m` visit the entries of `m`. -/
def telecom5BodyToRbdPushReq (unmarshalMap : String → Except String GoMap)
    (rangeOrder : GoMap → List (String × JsonValue)) (body : String) :
    Except Telecom5Error (List RbdPushReq) :=
  match unmarshalMap body with
  | Except.error err =>
    Except.error (Telecom5Error.convertBody ("convert body to map: " ++ body ++ ": " ++ err))
  | Except.ok m =>
    let collected := classify (rangeOrder m)
    assemble collected.1 collected.2

/-- What the Go language guarantees of `range` over a map: every entry is
visited exactly once, in an order that is not specified. -/
def IsRangeOrder (rangeOrder : GoMap → List (String × JsonValue)) : Prop :=
  ∀ m : GoMap, (rangeOrder m).Perm m

/-- The entry holds a number (`value.(float64)` succeeds). -/
def isNumberField (entry : String × JsonValue) : Bool :=
  match entry.2 with
  | JsonValue.number _ => true
  | _ => false

/-- The entry holds a string (`value.(string)` succeeds). -/
def isStringField (entry : String × JsonValue) : Bool :=
  match entry.2 with
  | JsonValue.string _ => true
  | _ => false

/-- The metric a numeric entry stands for, none for any other entry. -/
def metricOfField (entry : String × JsonValue) : Option Metric :=
  match entry.2 with
  | JsonValue.number val => some { MetricName := entry.1, MetricValue := val, MetricType := "" }
  | _ => none

/-- The label a string entry stands for, none for any other entry. -/
def labelOfField (entry : String × JsonValue) : Option Label :=
  match entry.2 with
  | JsonValue.string val => some { Key := entry.1, Value := val }
  | _ => none

/-- The method `Error()` of the errors above; line 33 gives the text of
`ErrEmptyMetricNotAllowed`. -/
def Telecom5Error.Error : Telecom5Error → String
  | Telecom5Error.convertBody msg => msg
  | Telecom5Error.ErrEmptyMetricNotAllowed => "empty labels not allowed"

/-! ## The structured parser (`rbd_push.go`, lines 106-113) -/

/-- The function `parseBodyToRbdPushReq`.  `unmarshalReq` is
`ffjson.Unmarshal(body, &res)` for `res : RbdPushReq`. -/
def parseBodyToRbdPushReq (unmarshalReq : String → Except String RbdPushReq) (body : String) :
    Except String RbdPushReq :=
  match unmarshalReq body with
  | Except.error err => Except.error ("body: " ++ body ++ ": " ++ err)
  | Except.ok res => Except.ok res

/-! ## The HTTP adapters (`rbd_push.go` 56-104, `telecom5_push.go` 43-98)

An adapter is modelled by its observable actions during one invocation: the
calls of `http.Error`, the log records, the assignments to fields of `*r`, the
call of `next`, and the shared variables `ps` and `mtx` it leaves behind. -/

/-- The type `httprouter.Params`: a slice of key/value pairs. -/
abbrev Params := List (String × String)

/-- The method `Params.ByName` of httprouter: the value of the first parameter
whose key is `name`, the empty string when there is none. -/
def ByName : Params → String → String
  | [], _ => ""
  | p :: rest, name => if p.1 = name then p.2 else ByName rest name

/-- The fields of `http.Request` the model keeps.  `Body` holds what
`ioutil.ReadAll(r.Body)` returns for the reader stored there: the bytes, or
the text of the read error.  The adapters touch `Body` and `RequestURI` only. -/
structure Request where
  Method : String
  Header : List (String × String)
  Body : Except String String
  RequestURI : String
deriving DecidableEq

/-- The variables the returned closure shares between invocations: `ps` and
the mutex `mtx` (`locked` is true while it is held). -/
structure AdapterState where
  ps : Params
  locked : Bool
deriving DecidableEq

/-- Levels of the go-kit logger used by the adapters. -/
inductive LogLevel where
  | debug : LogLevel
  | error : LogLevel
deriving DecidableEq

/-- What one run of the inner handler did. -/
structure HandlerResult where
  /-- Calls `http.Error(w, msg, code)`, in order. -/
  httpErrors : List (String × Nat)
  /-- Calls `level.X(logger).Log(keyvals...)`, in order. -/
  logs : List (LogLevel × List String)
  /-- The request `*r` when the handler returns. -/
  request : Request
  /-- The arguments `(r, ps)` of the call `next(w, r, ps)`, when it was made. -/
  nextCall : Option (Request × Params)
  /-- The shared variables when the handler returns. -/
  state : AdapterState
deriving DecidableEq

/-- The loop `for k, v := range labels { req.Labels = append(req.Labels, ...) }`
of both adapters, over the entries of the map `labels` in the order visited. -/
def appendLabels (labels : List (String × String)) (req : RbdPushReq) : RbdPushReq :=
  labels.foldl (fun acc kv => { acc with Labels := acc.Labels ++ [{ Key := kv.1, Value := kv.2 }] })
    req

/-- The `http.HandlerFunc` of `RbdPush` (lines 60-97), started in the shared
state `st`; it is only ever called with the mutex held, and `mtx.Unlock()`
releases it.  The map `labels` has the single entry `job`, so `range labels`
has one possible order. -/
def rbdHandler (unmarshalReq : String → Except String RbdPushReq) (fmtV : Float64 → String)
    (st : AdapterState) (r : Request) : HandlerResult :=
  let job := ByName st.ps "job"
  if job = "" then
    { httpErrors := [("job name is required", 400)],
      logs := [(LogLevel.debug, ["msg", "job name is required"])],
      request := r, nextCall := none, state := st }
  else
    let st := { st with locked := false }
    let labels := [("job", job)]
    match r.Body with
    | Except.error err =>
      { httpErrors := [(err, 500)], logs := [(LogLevel.error, ["msg", err])],
        request := r, nextCall := none, state := st }
    | Except.ok body =>
      match parseBodyToRbdPushReq unmarshalReq body with
      | Except.error err =>
        { httpErrors := [("bad request", 400)],
          logs := [(LogLevel.error, ["msg", "bad request", err])],
          request := r, nextCall := none, state := st }
      | Except.ok req =>
        let req := appendLabels labels req
        let text := convertRbdPushReq2Text fmtV req
        let r := { r with Body := Except.ok text }
        { httpErrors := [], logs := [], request := r, nextCall := some (r, st.ps), state := st }

/-- The closure `RbdPush` returns (lines 99-103), called in the shared state
`st`: `mtx.Lock()`, `ps = params`, then the handler.  `none` stands for a call
that never gets past `mtx.Lock()` because the mutex is held. -/
def RbdPush (unmarshalReq : String → Except String RbdPushReq) (fmtV : Float64 → String)
    (st : AdapterState) (r : Request) (params : Params) : Option HandlerResult :=
  if st.locked then none
  else some (rbdHandler unmarshalReq fmtV { ps := params, locked := true } r)

/-- The `http.HandlerFunc` of `Telecom5Push` (lines 47-91). -/
def telecom5Handler (unmarshalMap : String → Except String GoMap)
    (rangeOrder : GoMap → List (String × JsonValue)) (fmtV : Float64 → String)
    (st : AdapterState) (r : Request) : HandlerResult :=
  let identify := ByName st.ps "identify"
  if identify = "" then
    { httpErrors := [("identify is required", 400)],
      logs := [(LogLevel.debug, ["msg", "identify is required"])],
      request := r, nextCall := none, state := st }
  else
    let st := { st with locked := false }
    let labels := [("identify", identify)]
    match r.Body with
    | Except.error err =>
      { httpErrors := [(err, 500)], logs := [(LogLevel.error, ["msg", err])],
        request := r, nextCall := none, state := st }
    | Except.ok body =>
      match telecom5BodyToRbdPushReq unmarshalMap rangeOrder body with
      | Except.error err =>
        { httpErrors := [("bad request", 400)],
          logs := [(LogLevel.error, ["msg", "bad request", err.Error])],
          request := r, nextCall := none, state := st }
      | Except.ok rbdPushReqs =>
        let texts : List String :=
          rbdPushReqs.foldl
            (fun acc rbdPushReq =>
              acc ++ [convertRbdPushReq2Text fmtV (appendLabels labels rbdPushReq)])
            []
        let text := stringsJoin texts ""
        let r := { r with Body := Except.ok text }
        let r := { r with RequestURI := "/metrics/job/telecom5" }
        { httpErrors := [], logs := [], request := r, nextCall := some (r, st.ps), state := st }

/-- The closure `Telecom5Push` returns (lines 93-97). -/
def Telecom5Push (unmarshalMap : String → Except String GoMap)
    (rangeOrder : GoMap → List (String × JsonValue)) (fmtV : Float64 → String)
    (st : AdapterState) (r : Request) (params : Params) : Option HandlerResult :=
  if st.locked then none
  else some (telecom5Handler unmarshalMap rangeOrder fmtV { ps := params, locked := true } r)

/-! ## The structured decode behind `parseBodyToRbdPushReq`

`ffjson.Unmarshal(body, &res)` for `res : RbdPushReq` is not under `src/`; only
the struct declarations with their `json` tags are (lines 30-47).  The decode
is modelled from sections 4.2 and 7 of the specification. -/

/-- The value stored under `name` in a JSON object; the last one when the
name is repeated. -/
def fieldOf : List (String × JsonValue) → String → Option JsonValue
  | [], _ => none
  | entry :: rest, name =>
    match fieldOf rest name with
    | some w => some w
    | none => if entry.1 = name then some entry.2 else none

/-- Modelled from the spec: decode of a field declared `string`; the decoder
`ffjson.Unmarshal` is missing from the sources.  Section 7: "absent fields
decode to zero-valued defaults (empty string name, zero value) rather than
erroring"; section 4.2: "no type coercion beyond standard JSON numeric/string
typing", so any other kind of value is an error.  The spec does not mention
`null`; it is taken as absent, as Go's decoder does. -/
def decodeStringField : Option JsonValue → Except String String
  | none => Except.ok ""
  | some JsonValue.null => Except.ok ""
  | some (JsonValue.string val) => Except.ok val
  | some _ => Except.error "json: cannot unmarshal value into Go value of type string"

/-- Modelled from the spec: decode of a field declared `float64`, on the same
sentences as `decodeStringField`; the decoder is missing from the sources. -/
def decodeNumberField : Option JsonValue → Except String Float64
  | none => Except.ok f64_zero
  | some JsonValue.null => Except.ok f64_zero
  | some (JsonValue.number val) => Except.ok val
  | some _ => Except.error "json: cannot unmarshal value into Go value of type float64"

/-- Modelled from the spec: decode of one element of `metrics` into a
`Metric`, field by field under the tags `metric_name`, `metric_value` and
`metric_type` of lines 38-40 (section 4.2: "array of {metric_name,
metric_value, metric_type}"); the decoder is missing from the sources. -/
def decodeMetric : JsonValue → Except String Metric
  | JsonValue.null => Except.ok { MetricName := "", MetricValue := f64_zero, MetricType := "" }
  | JsonValue.object fields =>
    match decodeStringField (fieldOf fields "metric_name") with
    | Except.error err => Except.error err
    | Except.ok name =>
      match decodeNumberField (fieldOf fields "metric_value") with
      | Except.error err => Except.error err
      | Except.ok value =>
        match decodeStringField (fieldOf fields "metric_type") with
        | Except.error err => Except.error err
        | Except.ok type =>
          Except.ok { MetricName := name, MetricValue := value, MetricType := type }
  | _ => Except.error "json: cannot unmarshal value into Go value of type handler.Metric"

/-- Modelled from the spec: decode of one element of `labels` into a `Label`,
under the tags `key` and `value` of lines 45-46 (section 4.2: "array of {key,
value}"); the decoder is missing from the sources. -/
def decodeLabel : JsonValue → Except String Label
  | JsonValue.null => Except.ok { Key := "", Value := "" }
  | JsonValue.object fields =>
    match decodeStringField (fieldOf fields "key") with
    | Except.error err => Except.error err
    | Except.ok key =>
      match decodeStringField (fieldOf fields "value") with
      | Except.error err => Except.error err
      | Except.ok value => Except.ok { Key := key, Value := value }
  | _ => Except.error "json: cannot unmarshal value into Go value of type handler.Label"

/-- Modelled from the spec: decode of the elements of an array one after the
other, failing when one of them fails; the decoder is missing from the
sources. -/
def decodeAll {α : Type} (decodeOne : JsonValue → Except String α) :
    List JsonValue → Except String (List α)
  | [] => Except.ok []
  | v :: rest =>
    match decodeOne v with
    | Except.error err => Except.error err
    | Except.ok a =>
      match decodeAll decodeOne rest with
      | Except.error err => Except.error err
      | Except.ok others => Except.ok (a :: others)

/-- Modelled from the spec: decode of a field declared as a slice (section
4.2: "two optional array fields", "Missing fields behave as empty arrays");
the decoder is missing from the sources. -/
def decodeSliceField {α : Type} (decodeOne : JsonValue → Except String α) :
    Option JsonValue → Except String (List α)
  | none => Except.ok []
  | some JsonValue.null => Except.ok []
  | some (JsonValue.array items) => decodeAll decodeOne items
  | some _ => Except.error "json: cannot unmarshal value into Go value of slice type"

/-- Modelled from the spec: the "direct structural decode into the IR" of
section 4.2, of a parsed JSON value into `RbdPushReq` under the tags `metrics`
and `labels` of lines 32-33; the decoder is missing from the sources. -/
def decodeRbdPushReq : JsonValue → Except String RbdPushReq
  | JsonValue.null => Except.ok { Metrics := [], Labels := [] }
  | JsonValue.object fields =>
    match decodeSliceField decodeMetric (fieldOf fields "metrics") with
    | Except.error err => Except.error err
    | Except.ok metrics =>
      match decodeSliceField decodeLabel (fieldOf fields "labels") with
      | Except.error err => Except.error err
      | Except.ok labels => Except.ok { Metrics := metrics, Labels := labels }
  | _ => Except.error "json: cannot unmarshal value into Go value of type handler.RbdPushReq"

/-- Modelled from the spec: `ffjson.Unmarshal(body, &res)` for
`res : RbdPushReq`, missing from the sources: bytes that are not valid JSON
are an error (section 4.2: "Any malformed JSON is a ParseError"), valid JSON is
decoded structurally.  `parseJSON` is the JSON grammar: the value a body
denotes, none when it is malformed. -/
def unmarshalRbdPushReq (parseJSON : String → Option JsonValue) (body : String) :
    Except String RbdPushReq :=
  match parseJSON body with
  | none => Except.error "invalid character"
  | some v => decodeRbdPushReq v

/-- A field declared `string` is absent, null or a string. -/
def stringFieldOk : Option JsonValue → Bool
  | none => true
  | some JsonValue.null => true
  | some (JsonValue.string _) => true
  | some _ => false

/-- A field declared `float64` is absent, null or a number. -/
def numberFieldOk : Option JsonValue → Bool
  | none => true
  | some JsonValue.null => true
  | some (JsonValue.number _) => true
  | some _ => false

/-- An element of `metrics` has the shape of the schema. -/
def metricEntryOk : JsonValue → Bool
  | JsonValue.null => true
  | JsonValue.object fields =>
    stringFieldOk (fieldOf fields "metric_name")
      && numberFieldOk (fieldOf fields "metric_value")
      && stringFieldOk (fieldOf fields "metric_type")
  | _ => false

/-- An element of `labels` has the shape of the schema. -/
def labelEntryOk : JsonValue → Bool
  | JsonValue.null => true
  | JsonValue.object fields =>
    stringFieldOk (fieldOf fields "key") && stringFieldOk (fieldOf fields "value")
  | _ => false

/-- A field declared as a slice is absent, null or an array of elements of
the right shape. -/
def sliceFieldOk (entryOk : JsonValue → Bool) : Option JsonValue → Bool
  | none => true
  | some JsonValue.null => true
  | some (JsonValue.array items) => items.all entryOk
  | some _ => false

/-- The object matches the input schema of section 4.2. -/
def MatchesSchema (fields : List (String × JsonValue)) : Prop :=
  sliceFieldOk metricEntryOk (fieldOf fields "metrics") = true
    ∧ sliceFieldOk labelEntryOk (fieldOf fields "labels") = true

instance (fields : List (String × JsonValue)) : Decidable (MatchesSchema fields) := by
  unfold MatchesSchema; infer_instance

/-- The string a field holds, the empty string when it holds none. -/
def stringOrDefault : Option JsonValue → String
  | some (JsonValue.string val) => val
  | _ => ""

/-- The number a field holds, zero when it holds none. -/
def numberOrDefault : Option JsonValue → Float64
  | some (JsonValue.number val) => val
  | _ => f64_zero

/-- The elements of the array a field holds, none when it holds no array. -/
def itemsOf : Option JsonValue → List JsonValue
  | some (JsonValue.array items) => items
  | _ => []

/-- The metric an element of `metrics` stands for, absent parts at their
defaults. -/
def metricOfEntry : JsonValue → Metric
  | JsonValue.object fields =>
    { MetricName := stringOrDefault (fieldOf fields "metric_name"),
      MetricValue := numberOrDefault (fieldOf fields "metric_value"),
      MetricType := stringOrDefault (fieldOf fields "metric_type") }
  | _ => { MetricName := "", MetricValue := f64_zero, MetricType := "" }

/-- The label an element of `labels` stands for, absent parts at their
defaults. -/
def labelOfEntry : JsonValue → Label
  | JsonValue.object fields =>
    { Key := stringOrDefault (fieldOf fields "key"),
      Value := stringOrDefault (fieldOf fields "value") }
  | _ => { Key := "", Value := "" }

/-! ## Sample inputs of the examples -/

/-- A request with a readable body, as an adapter receives it. -/
def sampleRequest : Request :=
  { Method := "POST", Header := [("Content-Type", "application/json")],
    Body := Except.ok "\x7b\x7d", RequestURI := "/push" }

/-- A structured decoder that yields one metric for every body. -/
def sampleUnmarshalReq : String → Except String RbdPushReq :=
  fun _ => Except.ok
    { Metrics := [{ MetricName := "some_metric", MetricValue := f64_3_14, MetricType := "" }],
      Labels := [] }

/-- A flat decoder that yields the map of the test "some metric" for every
body. -/
def sampleUnmarshalMap : String → Except String GoMap :=
  fun _ => Except.ok [("some_metric", JsonValue.number f64_3_14)]

/-! ## Vocabulary of the statements -/

/-- Concatenation of a list of strings, in order, with nothing in between. -/
def concatStrings : List String → String
  | [] => ""
  | s :: rest => s ++ concatStrings rest

/-- Number of newline characters of a string. -/
def countNewlines (s : String) : Nat :=
  s.data.count '\n'

/-- The string has no newline character. -/
def NoNewline (s : String) : Prop :=
  '\n' ∉ s.data

instance (s : String) : Decidable (NoNewline s) := by
  unfold NoNewline; infer_instance

/-- The text `k1="v1",k2="v2",...,kn="vn"` of a label list, written out by
recursion on the list. -/
def joinedLabels : List Label → String
  | [] => ""
  | [l] => l.Key ++ "=\"" ++ l.Value ++ "\""
  | l :: l2 :: rest => l.Key ++ "=\"" ++ l.Value ++ "\"" ++ "," ++ joinedLabels (l2 :: rest)

/-- What `%v` prints for the four constants above (`3.14`, `2398.283`, `-1`,
`0`); used to instantiate `fmtV` in closed examples.  Every other value is
sent to `0`, which is not what Go prints for it. -/
def fmtTable (v : Float64) : String :=
  if v = f64_3_14 then "3.14"
  else if v = f64_2398_283 then "2398.283"
  else if v = f64_neg1 then "-1"
  else "0"

/-! ## Lemmas on the renderer -/

theorem foldl_append_singleton {α β : Type} (f : α → β) (l : List α) (init : List β) :
    l.foldl (fun acc x => acc ++ [f x]) init = init ++ l.map f := by
  induction l generalizing init with
  | nil => simp
  | cons a l ih => simp [List.foldl_cons, ih]

theorem stringsJoin_empty_sep (l : List String) : stringsJoin l "" = concatStrings l := by
  induction l with
  | nil => rfl
  | cons a l ih =>
    cases l with
    | nil => simp [stringsJoin, concatStrings]
    | cons b rest =>
      simp only [stringsJoin, concatStrings] at ih ⊢
      rw [ih]; simp [String.append_assoc]

theorem convert_eq_concat (fmtV : Float64 → String) (req : RbdPushReq) :
    convertRbdPushReq2Text fmtV req
      = concatStrings (req.Metrics.map (metricText fmtV (labelText req.Labels))) := by
  unfold convertRbdPushReq2Text
  simp only [foldl_append_singleton, List.nil_append, stringsJoin_empty_sep]

theorem labelText_eq_joinedLabels (labels : List Label) :
    labelText labels = joinedLabels labels := by
  unfold labelText
  simp only [foldl_append_singleton, List.nil_append]
  induction labels with
  | nil => rfl
  | cons l rest ih =>
    cases rest with
    | nil => simp [stringsJoin, joinedLabels]
    | cons l2 rest =>
      simp only [List.map_cons, stringsJoin, joinedLabels] at ih ⊢
      rw [ih]

theorem string_length_eq_zero_iff (s : String) : s.length = 0 ↔ s = "" := by
  constructor
  · intro h
    have hd : s.data = [] := List.length_eq_zero.mp h
    exact String.ext hd
  · intro h
    rw [h]; rfl

theorem joinedLabels_cons_ne_empty (l : Label) (ls : List Label) :
    joinedLabels (l :: ls) ≠ "" := by
  intro h
  have hlen : (joinedLabels (l :: ls)).length = 0 := (string_length_eq_zero_iff _).mpr h
  cases ls with
  | nil =>
    simp only [joinedLabels, String.length_append] at hlen
    have : ("=\"" : String).length = 2 := by decide
    omega
  | cons l2 rest =>
    simp only [joinedLabels, String.length_append] at hlen
    have : ("=\"" : String).length = 2 := by decide
    omega

theorem labelText_eq_empty_iff (labels : List Label) : labelText labels = "" ↔ labels = [] := by
  rw [labelText_eq_joinedLabels]
  cases labels with
  | nil => simp [joinedLabels]
  | cons l ls => simp [joinedLabels_cons_ne_empty]

theorem metricText_of_empty (fmtV : Float64 → String) (m : Metric) :
    metricText fmtV "" m = typeText m ++ m.MetricName ++ " " ++ fmtV m.MetricValue ++ "\n" := by
  simp [metricText]

theorem metricText_of_ne_empty (fmtV : Float64 → String) (lt : String) (m : Metric)
    (h : lt ≠ "") :
    metricText fmtV lt m
      = typeText m ++ m.MetricName ++ "\x7b" ++ lt ++ "\x7d " ++ fmtV m.MetricValue ++ "\n" := by
  have hlen : lt.length ≠ 0 := fun h0 => h ((string_length_eq_zero_iff lt).mp h0)
  simp [metricText, hlen]

theorem countNewlines_append (a b : String) :
    countNewlines (a ++ b) = countNewlines a + countNewlines b := by
  simp [countNewlines, String.data_append, List.count_append]

theorem countNewlines_of_noNewline {s : String} (h : NoNewline s) : countNewlines s = 0 := by
  unfold countNewlines
  exact List.count_eq_zero.mpr h

theorem countNewlines_joinedLabels (labels : List Label)
    (h : ∀ l ∈ labels, NoNewline l.Key ∧ NoNewline l.Value) :
    countNewlines (joinedLabels labels) = 0 := by
  induction labels with
  | nil => rfl
  | cons l rest ih =>
    have hl := h l (List.mem_cons_self l rest)
    have hk := countNewlines_of_noNewline hl.1
    have hv := countNewlines_of_noNewline hl.2
    have hq : countNewlines "=\"" = 0 := by decide
    have hq2 : countNewlines "\"" = 0 := by decide
    have hc : countNewlines "," = 0 := by decide
    cases rest with
    | nil => simp [joinedLabels, countNewlines_append, hk, hv, hq, hq2]
    | cons l2 rest =>
      have ih2 := ih (fun x hx => h x (List.mem_cons_of_mem l hx))
      simp only [joinedLabels, countNewlines_append, hk, hv, hq, hq2, hc, ih2]

theorem countNewlines_typeText (m : Metric) (hn : NoNewline m.MetricName)
    (ht : NoNewline m.MetricType) :
    countNewlines (typeText m) = if m.MetricType ≠ "" then 1 else 0 := by
  have h1 : countNewlines "# TYPE " = 0 := by decide
  have h2 : countNewlines " " = 0 := by decide
  have h3 : countNewlines "\n" = 1 := by decide
  have h4 : countNewlines "" = 0 := by decide
  unfold typeText
  split
  · simp only [countNewlines_append, h1, h2, h3, countNewlines_of_noNewline hn,
      countNewlines_of_noNewline ht]
  · exact h4

theorem countNewlines_metricText (fmtV : Float64 → String) (lt : String) (m : Metric)
    (hlt : countNewlines lt = 0) (hn : NoNewline m.MetricName) (ht : NoNewline m.MetricType)
    (hv : NoNewline (fmtV m.MetricValue)) :
    countNewlines (metricText fmtV lt m) = 1 + if m.MetricType ≠ "" then 1 else 0 := by
  have h2 : countNewlines " " = 0 := by decide
  have h3 : countNewlines "\n" = 1 := by decide
  have h5 : countNewlines "\x7b" = 0 := by decide
  have h6 : countNewlines "\x7d " = 0 := by decide
  unfold metricText
  split
  · simp only [countNewlines_append, countNewlines_typeText m hn ht, h2, h3,
      countNewlines_of_noNewline hn, countNewlines_of_noNewline hv]
    omega
  · simp only [countNewlines_append, countNewlines_typeText m hn ht, h2, h3, h5, h6, hlt,
      countNewlines_of_noNewline hn, countNewlines_of_noNewline hv]
    omega

theorem countNewlines_concat_metricTexts (fmtV : Float64 → String) (lt : String)
    (hlt : countNewlines lt = 0) (metrics : List Metric)
    (hm : ∀ m ∈ metrics,
      NoNewline m.MetricName ∧ NoNewline m.MetricType ∧ NoNewline (fmtV m.MetricValue)) :
    countNewlines (concatStrings (metrics.map (metricText fmtV lt)))
      = metrics.length + (metrics.filter (fun m => m.MetricType ≠ "")).length := by
  induction metrics with
  | nil => rfl
  | cons m rest ih =>
    have hh := hm m (List.mem_cons_self m rest)
    have ih2 := ih (fun x hx => hm x (List.mem_cons_of_mem m hx))
    simp only [List.map_cons, concatStrings, countNewlines_append, ih2,
      countNewlines_metricText fmtV lt m hlt hh.1 hh.2.1 hh.2.2, List.length_cons]
    by_cases ht : m.MetricType = ""
    · simp [List.filter_cons, ht]; omega
    · simp [List.filter_cons, ht]; omega

theorem intercalate_go_eq (sep : String) (l : List String) (acc : String) :
    String.intercalate.go acc sep l = acc ++ concatStrings (l.map (fun x => sep ++ x)) := by
  induction l generalizing acc with
  | nil => simp [String.intercalate.go, concatStrings]
  | cons a rest ih =>
    simp only [String.intercalate.go, ih, List.map_cons, concatStrings, String.append_assoc]

theorem stringsJoin_cons_eq (sep : String) (a : String) (l : List String) :
    stringsJoin (a :: l) sep = a ++ concatStrings (l.map (fun x => sep ++ x)) := by
  induction l generalizing a with
  | nil => simp [stringsJoin, concatStrings]
  | cons b rest ih =>
    simp only [stringsJoin, ih, List.map_cons, concatStrings, String.append_assoc]

theorem stringsJoin_eq_intercalate (sep : String) (l : List String) :
    stringsJoin l sep = String.intercalate sep l := by
  cases l with
  | nil => rfl
  | cons a rest => rw [stringsJoin_cons_eq, String.intercalate, intercalate_go_eq]

theorem foldl_classifyEntry (visit : List (String × JsonValue))
    (acc : List Metric × List Label) :
    visit.foldl classifyEntry acc
      = (acc.1 ++ visit.filterMap metricOfField, acc.2 ++ visit.filterMap labelOfField) := by
  induction visit generalizing acc with
  | nil => simp
  | cons e rest ih =>
    obtain ⟨key, value⟩ := e
    cases value <;>
      simp [List.foldl_cons, classifyEntry, metricOfField, labelOfField, ih]

theorem classify_eq (visit : List (String × JsonValue)) :
    classify visit = (visit.filterMap metricOfField, visit.filterMap labelOfField) := by
  simp [classify, foldl_classifyEntry]

theorem filterMap_metricOfField_eq_nil (l : List (String × JsonValue)) :
    l.filterMap metricOfField = [] ↔ ∀ e ∈ l, isNumberField e = false := by
  induction l with
  | nil => simp
  | cons e rest ih =>
    obtain ⟨key, value⟩ := e
    cases value <;> simp [metricOfField, isNumberField, ih]

theorem filterMap_labelOfField_eq_nil (l : List (String × JsonValue)) :
    l.filterMap labelOfField = [] ↔ ∀ e ∈ l, isStringField e = false := by
  induction l with
  | nil => simp
  | cons e rest ih =>
    obtain ⟨key, value⟩ := e
    cases value <;> simp [labelOfField, isStringField, ih]

theorem assemble_eq (metrics : List Metric) (fblabels : List Label) :
    assemble metrics fblabels
      = if metrics = [] ∧ fblabels = [] then
          Except.error Telecom5Error.ErrEmptyMetricNotAllowed
        else
          Except.ok ((if metrics = [] then [] else [{ Metrics := metrics, Labels := [] }])
            ++ (if fblabels = [] then []
                else [{ Metrics := [fbmetric], Labels := fblabels }])) := by
  cases metrics <;> cases fblabels <;> simp [assemble]

theorem telecom5_eq_of_decoded (unmarshalMap : String → Except String GoMap)
    (rangeOrder : GoMap → List (String × JsonValue)) (body : String) (m : GoMap)
    (hm : unmarshalMap body = Except.ok m) :
    telecom5BodyToRbdPushReq unmarshalMap rangeOrder body
      = assemble ((rangeOrder m).filterMap metricOfField)
          ((rangeOrder m).filterMap labelOfField) := by
  simp [telecom5BodyToRbdPushReq, hm, classify_eq]

theorem perm_forall_iff {α : Type} {l₁ l₂ : List α} (h : l₁.Perm l₂) (p : α → Prop) :
    (∀ e ∈ l₁, p e) ↔ ∀ e ∈ l₂, p e := by
  constructor
  · intro h1 e he
    exact h1 e (h.mem_iff.mpr he)
  · intro h2 e he
    exact h2 e (h.mem_iff.mp he)

theorem appendLabels_single (key value : String) (req : RbdPushReq) :
    appendLabels [(key, value)] req
      = { Metrics := req.Metrics, Labels := req.Labels ++ [{ Key := key, Value := value }] } := by
  rfl

theorem RbdPush_of_free (unmarshalReq : String → Except String RbdPushReq)
    (fmtV : Float64 → String) (st : AdapterState) (r : Request) (params : Params)
    (hfree : st.locked = false) :
    RbdPush unmarshalReq fmtV st r params
      = some (rbdHandler unmarshalReq fmtV { ps := params, locked := true } r) := by
  simp [RbdPush, hfree]

theorem Telecom5Push_of_free (unmarshalMap : String → Except String GoMap)
    (rangeOrder : GoMap → List (String × JsonValue)) (fmtV : Float64 → String)
    (st : AdapterState) (r : Request) (params : Params) (hfree : st.locked = false) :
    Telecom5Push unmarshalMap rangeOrder fmtV st r params
      = some (telecom5Handler unmarshalMap rangeOrder fmtV { ps := params, locked := true } r) := by
  simp [Telecom5Push, hfree]

theorem concatStrings_append (l₁ l₂ : List String) :
    concatStrings (l₁ ++ l₂) = concatStrings l₁ ++ concatStrings l₂ := by
  induction l₁ with
  | nil => simp [concatStrings]
  | cons a rest ih => simp [concatStrings, ih, String.append_assoc]

theorem metricText_length_pos (fmtV : Float64 → String) (lt : String) (m : Metric) :
    0 < (metricText fmtV lt m).length := by
  have hn : ("\n" : String).length = 1 := by decide
  unfold metricText
  split <;> simp only [String.length_append, hn] <;> omega

theorem string_ne_empty_of_length_pos {s : String} (h : 0 < s.length) : s ≠ "" := by
  intro h0
  rw [h0] at h
  exact absurd h (by decide)

theorem append_ne_empty_left {a : String} (b : String) (h : a ≠ "") : a ++ b ≠ "" := by
  have ha : 0 < a.length := by
    rcases Nat.eq_zero_or_pos a.length with h0 | h0
    · exact absurd ((string_length_eq_zero_iff a).mp h0) h
    · exact h0
  apply string_ne_empty_of_length_pos
  rw [String.length_append]
  omega

theorem convert_ne_empty (fmtV : Float64 → String) (req : RbdPushReq)
    (h : req.Metrics ≠ []) : convertRbdPushReq2Text fmtV req ≠ "" := by
  rw [convert_eq_concat]
  cases hm : req.Metrics with
  | nil => exact absurd hm h
  | cons m rest =>
    simp only [List.map_cons, concatStrings]
    exact append_ne_empty_left _ (string_ne_empty_of_length_pos (metricText_length_pos fmtV _ m))

theorem assemble_ok_props (metrics : List Metric) (fblabels : List Label)
    (reqs : List RbdPushReq) (h : assemble metrics fblabels = Except.ok reqs) :
    (reqs.length = 1 ∨ reqs.length = 2) ∧ ∀ q ∈ reqs, q.Metrics ≠ [] := by
  rw [assemble_eq] at h
  cases metrics with
  | nil =>
    cases fblabels with
    | nil => simp at h
    | cons l ls =>
      simp at h
      subst h
      simp [fbmetric]
  | cons m ms =>
    cases fblabels with
    | nil =>
      simp at h
      subst h
      simp
    | cons l ls =>
      simp at h
      subst h
      simp [fbmetric]

theorem telecom5_ok_props (unmarshalMap : String → Except String GoMap)
    (rangeOrder : GoMap → List (String × JsonValue)) (body : String) (reqs : List RbdPushReq)
    (h : telecom5BodyToRbdPushReq unmarshalMap rangeOrder body = Except.ok reqs) :
    (reqs.length = 1 ∨ reqs.length = 2) ∧ ∀ q ∈ reqs, q.Metrics ≠ [] := by
  unfold telecom5BodyToRbdPushReq at h
  cases hm : unmarshalMap body with
  | error err => rw [hm] at h; cases h
  | ok m =>
    rw [hm] at h
    exact assemble_ok_props _ _ reqs h

theorem concat_renderings_ne_empty (fmtV : Float64 → String) (f : RbdPushReq → RbdPushReq)
    (hf : ∀ q, (f q).Metrics = q.Metrics) (reqs : List RbdPushReq) (hne : reqs ≠ [])
    (hall : ∀ q ∈ reqs, q.Metrics ≠ []) :
    concatStrings (reqs.map (fun q => convertRbdPushReq2Text fmtV (f q))) ≠ "" := by
  cases reqs with
  | nil => exact absurd rfl hne
  | cons q rest =>
    simp only [List.map_cons, concatStrings]
    apply append_ne_empty_left
    apply convert_ne_empty
    rw [hf q]
    exact hall q (List.mem_cons_self q rest)

theorem appendLabels_Metrics (labels : List (String × String)) (req : RbdPushReq) :
    (appendLabels labels req).Metrics = req.Metrics := by
  unfold appendLabels
  induction labels generalizing req with
  | nil => rfl
  | cons kv rest ih => simp only [List.foldl_cons]; rw [ih]

theorem telecom5Handler_forwarded (unmarshalMap : String → Except String GoMap)
    (rangeOrder : GoMap → List (String × JsonValue)) (fmtV : Float64 → String)
    (st : AdapterState) (r : Request) (forwarded : Request) (ps : Params)
    (h : (telecom5Handler unmarshalMap rangeOrder fmtV st r).nextCall = some (forwarded, ps)) :
    ∃ body reqs, r.Body = Except.ok body
      ∧ telecom5BodyToRbdPushReq unmarshalMap rangeOrder body = Except.ok reqs
      ∧ forwarded.Body
        = Except.ok (concatStrings (reqs.map (fun q =>
            convertRbdPushReq2Text fmtV
              (appendLabels [("identify", ByName st.ps "identify")] q)))) := by
  by_cases hid : ByName st.ps "identify" = ""
  · simp [telecom5Handler, hid] at h
  · cases hb : r.Body with
    | error err => simp [telecom5Handler, hid, hb] at h
    | ok body =>
      cases hp : telecom5BodyToRbdPushReq unmarshalMap rangeOrder body with
      | error err => simp [telecom5Handler, hid, hb, hp] at h
      | ok reqs =>
        refine ⟨body, reqs, rfl, hp, ?_⟩
        simp only [telecom5Handler, hid, hb, hp, if_false, foldl_append_singleton,
          List.nil_append, stringsJoin_empty_sep, Option.some.injEq, Prod.mk.injEq] at h
        rw [← h.1]

theorem decodeStringField_of_ok (v : Option JsonValue) (h : stringFieldOk v = true) :
    decodeStringField v = Except.ok (stringOrDefault v) := by
  cases v with
  | none => rfl
  | some w => cases w <;> simp_all [stringFieldOk, decodeStringField, stringOrDefault]

theorem decodeNumberField_of_ok (v : Option JsonValue) (h : numberFieldOk v = true) :
    decodeNumberField v = Except.ok (numberOrDefault v) := by
  cases v with
  | none => rfl
  | some w => cases w <;> simp_all [numberFieldOk, decodeNumberField, numberOrDefault]

theorem decodeMetric_of_ok (v : JsonValue) (h : metricEntryOk v = true) :
    decodeMetric v = Except.ok (metricOfEntry v) := by
  cases v with
  | object fields =>
    simp only [metricEntryOk, Bool.and_eq_true] at h
    simp only [decodeMetric, metricOfEntry, decodeStringField_of_ok _ h.1.1,
      decodeNumberField_of_ok _ h.1.2, decodeStringField_of_ok _ h.2]
  | null => rfl
  | bool b => simp [metricEntryOk] at h
  | number val => simp [metricEntryOk] at h
  | string val => simp [metricEntryOk] at h
  | array items => simp [metricEntryOk] at h

theorem decodeLabel_of_ok (v : JsonValue) (h : labelEntryOk v = true) :
    decodeLabel v = Except.ok (labelOfEntry v) := by
  cases v with
  | object fields =>
    simp only [labelEntryOk, Bool.and_eq_true] at h
    simp only [decodeLabel, labelOfEntry, decodeStringField_of_ok _ h.1,
      decodeStringField_of_ok _ h.2]
  | null => rfl
  | bool b => simp [labelEntryOk] at h
  | number val => simp [labelEntryOk] at h
  | string val => simp [labelEntryOk] at h
  | array items => simp [labelEntryOk] at h

theorem decodeAll_of_ok {α : Type} (decodeOne : JsonValue → Except String α)
    (entryOk : JsonValue → Bool) (value : JsonValue → α)
    (hone : ∀ v, entryOk v = true → decodeOne v = Except.ok (value v))
    (items : List JsonValue) (h : items.all entryOk = true) :
    decodeAll decodeOne items = Except.ok (items.map value) := by
  induction items with
  | nil => rfl
  | cons v rest ih =>
    simp only [List.all_cons, Bool.and_eq_true] at h
    simp only [decodeAll, hone v h.1, ih h.2, List.map_cons]

theorem decodeSliceField_of_ok {α : Type} (decodeOne : JsonValue → Except String α)
    (entryOk : JsonValue → Bool) (value : JsonValue → α)
    (hone : ∀ v, entryOk v = true → decodeOne v = Except.ok (value v))
    (v : Option JsonValue) (h : sliceFieldOk entryOk v = true) :
    decodeSliceField decodeOne v = Except.ok ((itemsOf v).map value) := by
  cases v with
  | none => rfl
  | some w =>
    cases w with
    | array items =>
      simp only [sliceFieldOk] at h
      simp only [decodeSliceField, itemsOf]
      exact decodeAll_of_ok decodeOne entryOk value hone items h
    | null => rfl
    | bool b => simp [sliceFieldOk] at h
    | number val => simp [sliceFieldOk] at h
    | string val => simp [sliceFieldOk] at h
    | object fields => simp [sliceFieldOk] at h

/-! ## The renderer: claims -/

/-- C1: for every request, `convertRbdPushReq2Text` returns the concatenation,
in the order of `req.Metrics` and with nothing in between, of one chunk per
metric: the line `# TYPE <name> <type>` exactly when the type is non-empty,
then `<name> <value>` when the joined label text is empty and
`<name>{<labelText>} <value>` otherwise, each line ended by a newline. -/
theorem C1_convert_concatenates_chunks (fmtV : Float64 → String) (req : RbdPushReq) :
    convertRbdPushReq2Text fmtV req
      = concatStrings (req.Metrics.map (fun m =>
          (if m.MetricType = "" then ""
            else "# TYPE " ++ m.MetricName ++ " " ++ m.MetricType ++ "\n")
          ++ (if labelText req.Labels = "" then
                m.MetricName ++ " " ++ fmtV m.MetricValue ++ "\n"
              else
                m.MetricName ++ "\x7b" ++ labelText req.Labels ++ "\x7d "
                  ++ fmtV m.MetricValue ++ "\n"))) := by
  rw [convert_eq_concat]
  congr 1
  apply List.map_congr_left
  intro m _
  by_cases hl : labelText req.Labels = ""
  · rw [hl, metricText_of_empty]
    by_cases ht : m.MetricType = "" <;> simp [typeText, ht, String.append_assoc]
  · rw [metricText_of_ne_empty fmtV _ m hl]
    by_cases ht : m.MetricType = "" <;> simp [typeText, ht, hl, String.append_assoc]

/-- C2: the label text of the labels `(k1,v1),...,(kn,vn)` is
`k1="v1",k2="v2",...,kn="vn"`, the labels in input order joined by commas,
nothing merged and nothing escaped; and when there is at least one label every
metric line of the output carries exactly this text between braces. -/
theorem C2_label_text_in_input_order (fmtV : Float64 → String) (metrics : List Metric)
    (l : Label) (ls : List Label) :
    labelText (l :: ls)
        = String.intercalate "," ((l :: ls).map (fun x => x.Key ++ "=\"" ++ x.Value ++ "\""))
      ∧ labelText (l :: ls) = joinedLabels (l :: ls)
      ∧ convertRbdPushReq2Text fmtV { Metrics := metrics, Labels := l :: ls }
        = concatStrings (metrics.map (fun m =>
            typeText m ++ m.MetricName ++ "\x7b" ++ joinedLabels (l :: ls) ++ "\x7d "
              ++ fmtV m.MetricValue ++ "\n")) := by
  refine ⟨?_, labelText_eq_joinedLabels _, ?_⟩
  · unfold labelText
    simp only [foldl_append_singleton, List.nil_append, stringsJoin_eq_intercalate]
  · rw [convert_eq_concat]
    congr 1
    apply List.map_congr_left
    intro m _
    have hne : labelText (l :: ls) ≠ "" := by
      rw [labelText_eq_joinedLabels]; exact joinedLabels_cons_ne_empty l ls
    rw [metricText_of_ne_empty fmtV _ m hne, labelText_eq_joinedLabels]

/-- C9: a request with no metric renders to the empty string, whatever its
labels are. -/
theorem C9_no_metrics_renders_empty (fmtV : Float64 → String) (labels : List Label) :
    convertRbdPushReq2Text fmtV { Metrics := [], Labels := labels } = "" := by
  rfl

/-- C8 (as stated, refuted): a single untyped metric whose name holds a newline
renders to `a\nb 0\n`, which has two newline characters, while the number of
metrics plus the number of typed metrics is one. -/
theorem C8_newline_in_name_counterexample :
    countNewlines
        (convertRbdPushReq2Text fmtTable
          { Metrics := [{ MetricName := "a\nb", MetricValue := f64_zero, MetricType := "" }],
            Labels := [] })
      ≠ [({ MetricName := "a\nb", MetricValue := f64_zero, MetricType := "" } : Metric)].length
        + ([({ MetricName := "a\nb", MetricValue := f64_zero, MetricType := "" } : Metric)].filter
            (fun m => m.MetricType ≠ "")).length := by
  decide

/-- C8 (amended): when no metric name, metric type, printed value, label key
or label value holds a newline character, the number of newline characters of
the output is the number of metrics plus the number of metrics whose type is
non-empty. -/
theorem C8_line_count (fmtV : Float64 → String) (req : RbdPushReq)
    (hm : ∀ m ∈ req.Metrics,
      NoNewline m.MetricName ∧ NoNewline m.MetricType ∧ NoNewline (fmtV m.MetricValue))
    (hl : ∀ l ∈ req.Labels, NoNewline l.Key ∧ NoNewline l.Value) :
    countNewlines (convertRbdPushReq2Text fmtV req)
      = req.Metrics.length + (req.Metrics.filter (fun m => m.MetricType ≠ "")).length := by
  rw [convert_eq_concat]
  apply countNewlines_concat_metricTexts fmtV _ _ req.Metrics hm
  rw [labelText_eq_joinedLabels]
  exact countNewlines_joinedLabels req.Labels hl

/-- C8 (amended), at the request of the test "another metirc with labels and
type": four lines for two typed metrics. -/
theorem C8_line_count_witness :
    countNewlines
        (convertRbdPushReq2Text fmtTable
          { Metrics := [{ MetricName := "some_metric", MetricValue := f64_3_14,
                          MetricType := "gauge" },
                        { MetricName := "another_metric", MetricValue := f64_2398_283,
                          MetricType := "counter" }],
            Labels := [{ Key := "tenant_id", Value := "my_tenant_id" },
                       { Key := "tenant_id", Value := "my_service_id" }] })
      = 2 + 2 :=
  C8_line_count fmtTable
    { Metrics := [{ MetricName := "some_metric", MetricValue := f64_3_14,
                    MetricType := "gauge" },
                  { MetricName := "another_metric", MetricValue := f64_2398_283,
                    MetricType := "counter" }],
      Labels := [{ Key := "tenant_id", Value := "my_tenant_id" },
                 { Key := "tenant_id", Value := "my_service_id" }] }
    (by decide) (by decide)

/-! ## The flat parser: claims -/

/-- C3: when `telecom5BodyToRbdPushReq` succeeds on a body decoded to the map
`m`, its result is, in this order: one request holding all the numeric fields
as metrics and no label, present exactly when `m` has a numeric field; then one
request holding the single sentinel metric `foobar`, `-1`, no type, and all
the string fields as labels, present exactly when `m` has a string field. -/
theorem C3_metric_group_then_sentinel_group (unmarshalMap : String → Except String GoMap)
    (rangeOrder : GoMap → List (String × JsonValue)) (body : String) (m : GoMap)
    (reqs : List RbdPushReq) (hrange : IsRangeOrder rangeOrder)
    (hm : unmarshalMap body = Except.ok m)
    (hok : telecom5BodyToRbdPushReq unmarshalMap rangeOrder body = Except.ok reqs) :
    ∃ (metrics : List Metric) (labels : List Label),
      metrics.Perm (m.filterMap metricOfField) ∧ labels.Perm (m.filterMap labelOfField)
      ∧ reqs
        = (if m.any isNumberField then [{ Metrics := metrics, Labels := [] }] else [])
          ++ (if m.any isStringField then
                [{ Metrics := [{ MetricName := "foobar", MetricValue := f64_neg1,
                                 MetricType := "" }],
                   Labels := labels }]
              else []) := by
  refine ⟨(rangeOrder m).filterMap metricOfField, (rangeOrder m).filterMap labelOfField,
    (hrange m).filterMap _, (hrange m).filterMap _, ?_⟩
  rw [telecom5_eq_of_decoded unmarshalMap rangeOrder body m hm, assemble_eq] at hok
  have hnum : (rangeOrder m).filterMap metricOfField = [] ↔ m.any isNumberField = false := by
    rw [filterMap_metricOfField_eq_nil, perm_forall_iff (hrange m)]
    simp
  have hstr : (rangeOrder m).filterMap labelOfField = [] ↔ m.any isStringField = false := by
    rw [filterMap_labelOfField_eq_nil, perm_forall_iff (hrange m)]
    simp
  split at hok
  · cases hok
  · have heq := Except.ok.inj hok
    rw [← heq]
    by_cases h1 : (rangeOrder m).filterMap metricOfField = [] <;>
      by_cases h2 : (rangeOrder m).filterMap labelOfField = []
    · have a1 := hnum.mp h1
      have a2 := hstr.mp h2
      simp [h1, h2, a1, a2]
    · have a1 := hnum.mp h1
      have a2 : m.any isStringField = true := by
        cases hb : m.any isStringField
        · exact absurd (hstr.mpr hb) h2
        · rfl
      simp [h1, h2, a1, a2, fbmetric]
    · have a1 : m.any isNumberField = true := by
        cases hb : m.any isNumberField
        · exact absurd (hnum.mpr hb) h1
        · rfl
      have a2 := hstr.mp h2
      simp [h1, h2, a1, a2]
    · have a1 : m.any isNumberField = true := by
        cases hb : m.any isNumberField
        · exact absurd (hnum.mpr hb) h1
        · rfl
      have a2 : m.any isStringField = true := by
        cases hb : m.any isStringField
        · exact absurd (hstr.mpr hb) h2
        · rfl
      simp [h1, h2, a1, a2, fbmetric]

/-- C3 at the decoded body of the test "version" with one metric dropped: one
metric group, then the sentinel group. -/
theorem C3_metric_group_then_sentinel_group_witness :
    ∃ (metrics : List Metric) (labels : List Label),
      metrics.Perm
          ([("some_metric", JsonValue.number f64_3_14),
            ("version", JsonValue.string "1.0.5.1")].filterMap metricOfField)
      ∧ labels.Perm
          ([("some_metric", JsonValue.number f64_3_14),
            ("version", JsonValue.string "1.0.5.1")].filterMap labelOfField)
      ∧ [({ Metrics := [{ MetricName := "some_metric", MetricValue := f64_3_14,
                          MetricType := "" }],
            Labels := [] } : RbdPushReq),
         { Metrics := [fbmetric], Labels := [{ Key := "version", Value := "1.0.5.1" }] }]
        = (if [("some_metric", JsonValue.number f64_3_14),
               ("version", JsonValue.string "1.0.5.1")].any isNumberField
           then [{ Metrics := metrics, Labels := [] }] else [])
          ++ (if [("some_metric", JsonValue.number f64_3_14),
                  ("version", JsonValue.string "1.0.5.1")].any isStringField then
                [{ Metrics := [{ MetricName := "foobar", MetricValue := f64_neg1,
                                 MetricType := "" }],
                   Labels := labels }]
              else []) :=
  C3_metric_group_then_sentinel_group
    (fun _ => Except.ok [("some_metric", JsonValue.number f64_3_14),
                         ("version", JsonValue.string "1.0.5.1")])
    (fun m => m) "\x7b\"some_metric\":3.14,\"version\":\"1.0.5.1\"\x7d"
    [("some_metric", JsonValue.number f64_3_14), ("version", JsonValue.string "1.0.5.1")]
    [{ Metrics := [{ MetricName := "some_metric", MetricValue := f64_3_14, MetricType := "" }],
       Labels := [] },
     { Metrics := [fbmetric], Labels := [{ Key := "version", Value := "1.0.5.1" }] }]
    (fun m => List.Perm.refl m) rfl (by decide)

/-- C4: the loop classifies every entry on its own: a number appends the
metric `{key, number, ""}`, a string appends the label `{key, string}`, a
bool, null, array or object leaves both slices as they are (and dropping such
an entry anywhere in the visiting sequence changes nothing); so, whatever
order `range` takes, the metrics collected are the numeric fields of the map
and the labels collected are its string fields, each exactly once. -/
theorem C4_fields_classified_independently (rangeOrder : GoMap → List (String × JsonValue))
    (m : GoMap) (hrange : IsRangeOrder rangeOrder) :
    (∀ acc key val, classifyEntry acc (key, JsonValue.number val)
        = (acc.1 ++ [{ MetricName := key, MetricValue := val, MetricType := "" }], acc.2))
    ∧ (∀ acc key val, classifyEntry acc (key, JsonValue.string val)
        = (acc.1, acc.2 ++ [{ Key := key, Value := val }]))
    ∧ (∀ acc key b, classifyEntry acc (key, JsonValue.bool b) = acc)
    ∧ (∀ acc key, classifyEntry acc (key, JsonValue.null) = acc)
    ∧ (∀ acc key items, classifyEntry acc (key, JsonValue.array items) = acc)
    ∧ (∀ acc key fields, classifyEntry acc (key, JsonValue.object fields) = acc)
    ∧ (∀ pre post e, isNumberField e = false → isStringField e = false →
        classify (pre ++ e :: post) = classify (pre ++ post))
    ∧ (classify (rangeOrder m)).1.Perm (m.filterMap metricOfField)
    ∧ (classify (rangeOrder m)).2.Perm (m.filterMap labelOfField) := by
  refine ⟨fun _ _ _ => rfl, fun _ _ _ => rfl, fun _ _ _ => rfl, fun _ _ => rfl,
    fun _ _ _ => rfl, fun _ _ _ => rfl, ?_, ?_, ?_⟩
  · intro pre post e hn hs
    obtain ⟨key, value⟩ := e
    cases value <;>
      simp_all [classify_eq, List.filterMap_append, metricOfField, labelOfField,
        isNumberField, isStringField]
  · rw [classify_eq]
    exact (hrange m).filterMap _
  · rw [classify_eq]
    exact (hrange m).filterMap _

/-- C4 on a map with a number, a string and a bool, visited in reverse. -/
theorem C4_fields_classified_independently_witness :
    (∀ acc key val, classifyEntry acc (key, JsonValue.number val)
        = (acc.1 ++ [{ MetricName := key, MetricValue := val, MetricType := "" }], acc.2))
    ∧ (∀ acc key val, classifyEntry acc (key, JsonValue.string val)
        = (acc.1, acc.2 ++ [{ Key := key, Value := val }]))
    ∧ (∀ acc key b, classifyEntry acc (key, JsonValue.bool b) = acc)
    ∧ (∀ acc key, classifyEntry acc (key, JsonValue.null) = acc)
    ∧ (∀ acc key items, classifyEntry acc (key, JsonValue.array items) = acc)
    ∧ (∀ acc key fields, classifyEntry acc (key, JsonValue.object fields) = acc)
    ∧ (∀ pre post e, isNumberField e = false → isStringField e = false →
        classify (pre ++ e :: post) = classify (pre ++ post))
    ∧ (classify (List.reverse [("some_metric", JsonValue.number f64_3_14),
          ("version", JsonValue.string "1.0.5.1"), ("up", JsonValue.bool true)])).1.Perm
        ([("some_metric", JsonValue.number f64_3_14),
          ("version", JsonValue.string "1.0.5.1"),
          ("up", JsonValue.bool true)].filterMap metricOfField)
    ∧ (classify (List.reverse [("some_metric", JsonValue.number f64_3_14),
          ("version", JsonValue.string "1.0.5.1"), ("up", JsonValue.bool true)])).2.Perm
        ([("some_metric", JsonValue.number f64_3_14),
          ("version", JsonValue.string "1.0.5.1"),
          ("up", JsonValue.bool true)].filterMap labelOfField) :=
  C4_fields_classified_independently List.reverse
    [("some_metric", JsonValue.number f64_3_14), ("version", JsonValue.string "1.0.5.1"),
     ("up", JsonValue.bool true)]
    (fun m => List.reverse_perm m)

/-- C5: on a body decoded to the map `m`, `telecom5BodyToRbdPushReq` fails
with `ErrEmptyMetricNotAllowed` exactly when no entry of `m` holds a number
and none holds a string; the result is then the error alone, with no list. -/
theorem C5_empty_error_iff_no_usable_field (unmarshalMap : String → Except String GoMap)
    (rangeOrder : GoMap → List (String × JsonValue)) (body : String) (m : GoMap)
    (hrange : IsRangeOrder rangeOrder) (hm : unmarshalMap body = Except.ok m) :
    telecom5BodyToRbdPushReq unmarshalMap rangeOrder body
        = Except.error Telecom5Error.ErrEmptyMetricNotAllowed
      ↔ ∀ e ∈ m, isNumberField e = false ∧ isStringField e = false := by
  rw [telecom5_eq_of_decoded unmarshalMap rangeOrder body m hm, assemble_eq]
  have hnum := (filterMap_metricOfField_eq_nil (rangeOrder m)).trans
    (perm_forall_iff (hrange m) (fun e => isNumberField e = false))
  have hstr := (filterMap_labelOfField_eq_nil (rangeOrder m)).trans
    (perm_forall_iff (hrange m) (fun e => isStringField e = false))
  constructor
  · intro h
    split at h
    · rename_i hc
      exact fun e he => ⟨hnum.mp hc.1 e he, hstr.mp hc.2 e he⟩
    · cases h
  · intro h
    rw [if_pos ⟨hnum.mpr (fun e he => (h e he).1), hstr.mpr (fun e he => (h e he).2)⟩]

/-- C5 at the body `{}` of the test "empty". -/
theorem C5_empty_error_iff_no_usable_field_witness :
    telecom5BodyToRbdPushReq (fun _ => Except.ok []) (fun m => m) "\x7b\x7d"
        = Except.error Telecom5Error.ErrEmptyMetricNotAllowed
      ↔ ∀ e ∈ ([] : GoMap), isNumberField e = false ∧ isStringField e = false :=
  C5_empty_error_iff_no_usable_field (fun _ => Except.ok []) (fun m => m) "\x7b\x7d" []
    (fun m => List.Perm.refl m) rfl

/-- C6 (the code at the failing input): the body of the test "another metirc"
decodes to a map with the two entries `some_metric` and `another_metric`; a
`range` that visits `another_metric` first is a legal order, and under it the
parser's result renders with the two lines swapped. -/
theorem C6_range_order_swaps_the_lines :
    IsRangeOrder List.reverse
    ∧ Except.map (fun reqs => concatStrings (reqs.map (convertRbdPushReq2Text fmtTable)))
        (telecom5BodyToRbdPushReq
          (fun _ => Except.ok [("some_metric", JsonValue.number f64_3_14),
                               ("another_metric", JsonValue.number f64_2398_283)])
          List.reverse "\x7b\"some_metric\":3.14,\"another_metric\":2398.283\x7d")
      = Except.ok "another_metric 2398.283\nsome_metric 3.14\n" :=
  ⟨fun m => List.reverse_perm m, by decide⟩

/-! ## The adapters: claims -/

/-- C7: on a request that is parsed successfully, each adapter appends the
label built from its routing token (`job` in `RbdPush`, `identify` in
`Telecom5Push`) once, after the labels the parser produced, to every request
it renders; the body handed to `next` is the rendering of these label lists. -/
theorem C7_routing_label_appended_last (unmarshalReq : String → Except String RbdPushReq)
    (unmarshalMap : String → Except String GoMap)
    (rangeOrder : GoMap → List (String × JsonValue)) (fmtV : Float64 → String)
    (stA : AdapterState) (rA : Request) (paramsA : Params) (bodyA : String) (req : RbdPushReq)
    (stB : AdapterState) (rB : Request) (paramsB : Params) (bodyB : String)
    (reqs : List RbdPushReq)
    (hfreeA : stA.locked = false) (hjob : ByName paramsA "job" ≠ "")
    (hbodyA : rA.Body = Except.ok bodyA)
    (hparseA : parseBodyToRbdPushReq unmarshalReq bodyA = Except.ok req)
    (hfreeB : stB.locked = false) (hidentify : ByName paramsB "identify" ≠ "")
    (hbodyB : rB.Body = Except.ok bodyB)
    (hparseB : telecom5BodyToRbdPushReq unmarshalMap rangeOrder bodyB = Except.ok reqs) :
    (∃ res, RbdPush unmarshalReq fmtV stA rA paramsA = some res
      ∧ res.request.Body
          = Except.ok (convertRbdPushReq2Text fmtV
              { Metrics := req.Metrics,
                Labels := req.Labels ++ [{ Key := "job", Value := ByName paramsA "job" }] })
      ∧ res.nextCall = some (res.request, paramsA))
    ∧ (∃ res, Telecom5Push unmarshalMap rangeOrder fmtV stB rB paramsB = some res
      ∧ res.request.Body
          = Except.ok (concatStrings (reqs.map (fun q =>
              convertRbdPushReq2Text fmtV
                { Metrics := q.Metrics,
                  Labels := q.Labels
                    ++ [{ Key := "identify", Value := ByName paramsB "identify" }] })))
      ∧ res.nextCall = some (res.request, paramsB)) := by
  constructor
  · refine ⟨_, RbdPush_of_free unmarshalReq fmtV stA rA paramsA hfreeA, ?_, ?_⟩
    · simp [rbdHandler, hjob, hbodyA, hparseA, appendLabels_single]
    · simp [rbdHandler, hjob, hbodyA, hparseA]
  · refine ⟨_, Telecom5Push_of_free unmarshalMap rangeOrder fmtV stB rB paramsB hfreeB, ?_, ?_⟩
    · simp [telecom5Handler, hidentify, hbodyB, hparseB, appendLabels_single,
        foldl_append_singleton, stringsJoin_empty_sep]
    · simp [telecom5Handler, hidentify, hbodyB, hparseB]

/-- C7 at one request for each adapter: a structured body with one label and
job `j1`, and a flat body with one number and one string and device `d1`. -/
theorem C7_routing_label_appended_last_witness :
    (∃ res,
      RbdPush
          (fun _ => Except.ok
            { Metrics := [{ MetricName := "some_metric", MetricValue := f64_3_14,
                            MetricType := "" }],
              Labels := [{ Key := "tenant_id", Value := "t" }] })
          fmtTable { ps := [], locked := false }
          { Method := "POST", Header := [], Body := Except.ok "\x7b\x7d", RequestURI := "/push/j1" }
          [("job", "j1")] = some res
      ∧ res.request.Body
          = Except.ok (convertRbdPushReq2Text fmtTable
              { Metrics := [{ MetricName := "some_metric", MetricValue := f64_3_14,
                              MetricType := "" }],
                Labels := [{ Key := "tenant_id", Value := "t" }]
                  ++ [{ Key := "job", Value := ByName [("job", "j1")] "job" }] })
      ∧ res.nextCall = some (res.request, [("job", "j1")]))
    ∧ (∃ res,
      Telecom5Push
          (fun _ => Except.ok [("some_metric", JsonValue.number f64_3_14),
                               ("version", JsonValue.string "1.0.5.1")])
          (fun m => m) fmtTable { ps := [], locked := false }
          { Method := "POST", Header := [], Body := Except.ok "\x7b\x7d", RequestURI := "/t5/d1" }
          [("identify", "d1")] = some res
      ∧ res.request.Body
          = Except.ok (concatStrings
              ([({ Metrics := [{ MetricName := "some_metric", MetricValue := f64_3_14,
                                 MetricType := "" }],
                   Labels := [] } : RbdPushReq),
                { Metrics := [fbmetric],
                  Labels := [{ Key := "version", Value := "1.0.5.1" }] }].map (fun q =>
                convertRbdPushReq2Text fmtTable
                  { Metrics := q.Metrics,
                    Labels := q.Labels
                      ++ [{ Key := "identify",
                            Value := ByName [("identify", "d1")] "identify" }] })))
      ∧ res.nextCall = some (res.request, [("identify", "d1")])) :=
  C7_routing_label_appended_last
    (fun _ => Except.ok
      { Metrics := [{ MetricName := "some_metric", MetricValue := f64_3_14, MetricType := "" }],
        Labels := [{ Key := "tenant_id", Value := "t" }] })
    (fun _ => Except.ok [("some_metric", JsonValue.number f64_3_14),
                         ("version", JsonValue.string "1.0.5.1")])
    (fun m => m) fmtTable
    { ps := [], locked := false }
    { Method := "POST", Header := [], Body := Except.ok "\x7b\x7d", RequestURI := "/push/j1" }
    [("job", "j1")] "\x7b\x7d"
    { Metrics := [{ MetricName := "some_metric", MetricValue := f64_3_14, MetricType := "" }],
      Labels := [{ Key := "tenant_id", Value := "t" }] }
    { ps := [], locked := false }
    { Method := "POST", Header := [], Body := Except.ok "\x7b\x7d", RequestURI := "/t5/d1" }
    [("identify", "d1")] "\x7b\x7d"
    [{ Metrics := [{ MetricName := "some_metric", MetricValue := f64_3_14, MetricType := "" }],
       Labels := [] },
     { Metrics := [fbmetric], Labels := [{ Key := "version", Value := "1.0.5.1" }] }]
    rfl (by decide) rfl rfl rfl (by decide) rfl (by decide)

/-- C10: an invocation of either adapter that finds the mutex free runs to
its end, and `next` is called in it exactly when the routing token is
non-empty, the body is read without error and the parser succeeds; when `next`
is not called the request is left as it was received, its body included. -/
theorem C10_next_iff_translation_succeeds (unmarshalReq : String → Except String RbdPushReq)
    (unmarshalMap : String → Except String GoMap)
    (rangeOrder : GoMap → List (String × JsonValue)) (fmtV : Float64 → String)
    (st : AdapterState) (r : Request) (params : Params) (hfree : st.locked = false) :
    (∃ res, RbdPush unmarshalReq fmtV st r params = some res
      ∧ (res.nextCall.isSome = true
          ↔ ByName params "job" ≠ ""
            ∧ ∃ body, r.Body = Except.ok body
              ∧ ∃ req, parseBodyToRbdPushReq unmarshalReq body = Except.ok req)
      ∧ (res.nextCall = none → res.request = r))
    ∧ (∃ res, Telecom5Push unmarshalMap rangeOrder fmtV st r params = some res
      ∧ (res.nextCall.isSome = true
          ↔ ByName params "identify" ≠ ""
            ∧ ∃ body, r.Body = Except.ok body
              ∧ ∃ reqs, telecom5BodyToRbdPushReq unmarshalMap rangeOrder body = Except.ok reqs)
      ∧ (res.nextCall = none → res.request = r)) := by
  constructor
  · refine ⟨_, RbdPush_of_free unmarshalReq fmtV st r params hfree, ?_, ?_⟩
    · by_cases hjob : ByName params "job" = ""
      · simp [rbdHandler, hjob]
      · cases hb : r.Body with
        | error err => simp [rbdHandler, hjob, hb]
        | ok body =>
          cases hp : parseBodyToRbdPushReq unmarshalReq body with
          | error err => simp [rbdHandler, hjob, hb, hp]
          | ok req => simp [rbdHandler, hjob, hb, hp]
    · by_cases hjob : ByName params "job" = ""
      · simp [rbdHandler, hjob]
      · cases hb : r.Body with
        | error err => simp [rbdHandler, hjob, hb]
        | ok body =>
          cases hp : parseBodyToRbdPushReq unmarshalReq body with
          | error err => simp [rbdHandler, hjob, hb, hp]
          | ok req => simp [rbdHandler, hjob, hb, hp]
  · refine ⟨_, Telecom5Push_of_free unmarshalMap rangeOrder fmtV st r params hfree, ?_, ?_⟩
    · by_cases hid : ByName params "identify" = ""
      · simp [telecom5Handler, hid]
      · cases hb : r.Body with
        | error err => simp [telecom5Handler, hid, hb]
        | ok body =>
          cases hp : telecom5BodyToRbdPushReq unmarshalMap rangeOrder body with
          | error err => simp [telecom5Handler, hid, hb, hp]
          | ok reqs => simp [telecom5Handler, hid, hb, hp]
    · by_cases hid : ByName params "identify" = ""
      · simp [telecom5Handler, hid]
      · cases hb : r.Body with
        | error err => simp [telecom5Handler, hid, hb]
        | ok body =>
          cases hp : telecom5BodyToRbdPushReq unmarshalMap rangeOrder body with
          | error err => simp [telecom5Handler, hid, hb, hp]
          | ok reqs => simp [telecom5Handler, hid, hb, hp]

/-- C10 at a request carrying both routing tokens and a readable body that
both parsers accept, received while the mutex is free. -/
theorem C10_next_iff_translation_succeeds_witness :
    (∃ res,
      RbdPush
          (fun _ => Except.ok
            { Metrics := [{ MetricName := "some_metric", MetricValue := f64_3_14,
                            MetricType := "" }],
              Labels := [] })
          fmtTable { ps := [], locked := false }
          { Method := "POST", Header := [], Body := Except.ok "\x7b\x7d", RequestURI := "/push" }
          [("job", "j1"), ("identify", "d1")] = some res
      ∧ (res.nextCall.isSome = true
          ↔ ByName [("job", "j1"), ("identify", "d1")] "job" ≠ ""
            ∧ ∃ body,
              ({ Method := "POST", Header := [], Body := Except.ok "\x7b\x7d",
                 RequestURI := "/push" } : Request).Body = Except.ok body
              ∧ ∃ req,
                parseBodyToRbdPushReq
                    (fun _ => Except.ok
                      { Metrics := [{ MetricName := "some_metric", MetricValue := f64_3_14,
                                      MetricType := "" }],
                        Labels := [] })
                    body = Except.ok req)
      ∧ (res.nextCall = none
          → res.request
            = { Method := "POST", Header := [], Body := Except.ok "\x7b\x7d",
                RequestURI := "/push" }))
    ∧ (∃ res,
      Telecom5Push (fun _ => Except.ok [("some_metric", JsonValue.number f64_3_14)])
          (fun m => m) fmtTable { ps := [], locked := false }
          { Method := "POST", Header := [], Body := Except.ok "\x7b\x7d", RequestURI := "/push" }
          [("job", "j1"), ("identify", "d1")] = some res
      ∧ (res.nextCall.isSome = true
          ↔ ByName [("job", "j1"), ("identify", "d1")] "identify" ≠ ""
            ∧ ∃ body,
              ({ Method := "POST", Header := [], Body := Except.ok "\x7b\x7d",
                 RequestURI := "/push" } : Request).Body = Except.ok body
              ∧ ∃ reqs,
                telecom5BodyToRbdPushReq
                    (fun _ => Except.ok [("some_metric", JsonValue.number f64_3_14)])
                    (fun m => m) body = Except.ok reqs)
      ∧ (res.nextCall = none
          → res.request
            = { Method := "POST", Header := [], Body := Except.ok "\x7b\x7d",
                RequestURI := "/push" })) :=
  C10_next_iff_translation_succeeds
    (fun _ => Except.ok
      { Metrics := [{ MetricName := "some_metric", MetricValue := f64_3_14, MetricType := "" }],
        Labels := [] })
    (fun _ => Except.ok [("some_metric", JsonValue.number f64_3_14)])
    (fun m => m) fmtTable { ps := [], locked := false }
    { Method := "POST", Header := [], Body := Except.ok "\x7b\x7d", RequestURI := "/push" }
    [("job", "j1"), ("identify", "d1")] rfl

/-! ## The renderer: further claims -/

/-- C16: the joined label text is empty exactly when the label list is empty
(a label with empty key and empty value still gives `=""`); so a request
without labels renders every metric line as `<name> <value>`, and a request
with at least one label renders every metric line with the label text between
braces after the name. -/
theorem C16_label_block_iff_labels (fmtV : Float64 → String) (metrics : List Metric)
    (labels : List Label) :
    (labelText labels = "" ↔ labels = [])
    ∧ labelText [{ Key := "", Value := "" }] = "=\"\""
    ∧ (labels = [] →
        convertRbdPushReq2Text fmtV { Metrics := metrics, Labels := labels }
          = concatStrings (metrics.map (fun m =>
              typeText m ++ m.MetricName ++ " " ++ fmtV m.MetricValue ++ "\n")))
    ∧ (labels ≠ [] →
        convertRbdPushReq2Text fmtV { Metrics := metrics, Labels := labels }
          = concatStrings (metrics.map (fun m =>
              typeText m ++ m.MetricName ++ "\x7b" ++ labelText labels ++ "\x7d "
                ++ fmtV m.MetricValue ++ "\n"))) := by
  refine ⟨labelText_eq_empty_iff labels, by decide, ?_, ?_⟩
  · intro h
    rw [convert_eq_concat]
    congr 1
    apply List.map_congr_left
    intro m _
    have hl : labelText labels = "" := (labelText_eq_empty_iff labels).mpr h
    simp only [hl, metricText_of_empty]
  · intro h
    rw [convert_eq_concat]
    congr 1
    apply List.map_congr_left
    intro m _
    have hl : labelText labels ≠ "" := fun h0 => h ((labelText_eq_empty_iff labels).mp h0)
    exact metricText_of_ne_empty fmtV _ m hl

/-- C17: rendering distributes over concatenation of metric lists: for every
label list `L` and metric lists `M1`, `M2`, the rendering of `(M1 ++ M2, L)` is
the rendering of `(M1, L)` followed by the rendering of `(M2, L)`. -/
theorem C17_render_append (fmtV : Float64 → String) (L : List Label) (M1 M2 : List Metric) :
    convertRbdPushReq2Text fmtV { Metrics := M1 ++ M2, Labels := L }
      = convertRbdPushReq2Text fmtV { Metrics := M1, Labels := L }
        ++ convertRbdPushReq2Text fmtV { Metrics := M2, Labels := L } := by
  simp only [convert_eq_concat, List.map_append, concatStrings_append]

/-! ## The flat parser and its adapter: further claims -/

/-- C15: when `telecom5BodyToRbdPushReq` succeeds it returns one or two
requests, each with at least one metric; the concatenation of their renderings
is not the empty string, and the body `Telecom5Push` hands to `next` is never
the empty string. -/
theorem C15_never_empty_body (unmarshalMap : String → Except String GoMap)
    (rangeOrder : GoMap → List (String × JsonValue)) (fmtV : Float64 → String)
    (body : String) (reqs : List RbdPushReq)
    (hok : telecom5BodyToRbdPushReq unmarshalMap rangeOrder body = Except.ok reqs) :
    (reqs.length = 1 ∨ reqs.length = 2)
    ∧ (∀ q ∈ reqs, 1 ≤ q.Metrics.length)
    ∧ concatStrings (reqs.map (convertRbdPushReq2Text fmtV)) ≠ ""
    ∧ (∀ (st : AdapterState) (r : Request) (params : Params) (res : HandlerResult)
        (forwarded : Request) (ps : Params),
        Telecom5Push unmarshalMap rangeOrder fmtV st r params = some res →
        res.nextCall = some (forwarded, ps) →
        forwarded.Body ≠ Except.ok "") := by
  have hp := telecom5_ok_props unmarshalMap rangeOrder body reqs hok
  have hne : reqs ≠ [] := by
    intro h0
    rw [h0] at hp
    simp at hp
  refine ⟨hp.1, ?_, ?_, ?_⟩
  · intro q hq
    have hq2 := hp.2 q hq
    cases hm : q.Metrics with
    | nil => exact absurd hm hq2
    | cons m ms => simp
  · exact concat_renderings_ne_empty fmtV (fun q => q) (fun _ => rfl) reqs hne hp.2
  · intro st r params res forwarded ps hres hnext
    unfold Telecom5Push at hres
    split at hres
    · cases hres
    · have hres2 := Option.some.inj hres
      rw [← hres2] at hnext
      obtain ⟨body2, reqs2, _, hok2, hbody⟩ :=
        telecom5Handler_forwarded unmarshalMap rangeOrder fmtV _ r forwarded ps hnext
      have hp2 := telecom5_ok_props unmarshalMap rangeOrder body2 reqs2 hok2
      have hne2 : reqs2 ≠ [] := by
        intro h0
        rw [h0] at hp2
        simp at hp2
      rw [hbody]
      intro h0
      exact concat_renderings_ne_empty fmtV _ (appendLabels_Metrics _) reqs2 hne2 hp2.2
        (Except.ok.inj h0)

/-- C15 at the decoded body of the test "some metric". -/
theorem C15_never_empty_body_witness :
    ([({ Metrics := [{ MetricName := "some_metric", MetricValue := f64_3_14,
                       MetricType := "" }],
         Labels := [] } : RbdPushReq)].length = 1
      ∨ [({ Metrics := [{ MetricName := "some_metric", MetricValue := f64_3_14,
                          MetricType := "" }],
            Labels := [] } : RbdPushReq)].length = 2)
    ∧ (∀ q ∈ [({ Metrics := [{ MetricName := "some_metric", MetricValue := f64_3_14,
                               MetricType := "" }],
                 Labels := [] } : RbdPushReq)], 1 ≤ q.Metrics.length)
    ∧ concatStrings
        ([({ Metrics := [{ MetricName := "some_metric", MetricValue := f64_3_14,
                           MetricType := "" }],
             Labels := [] } : RbdPushReq)].map (convertRbdPushReq2Text fmtTable)) ≠ ""
    ∧ (∀ (st : AdapterState) (r : Request) (params : Params) (res : HandlerResult)
        (forwarded : Request) (ps : Params),
        Telecom5Push (fun _ => Except.ok [("some_metric", JsonValue.number f64_3_14)])
            (fun m => m) fmtTable st r params = some res →
        res.nextCall = some (forwarded, ps) →
        forwarded.Body ≠ Except.ok "") :=
  C15_never_empty_body (fun _ => Except.ok [("some_metric", JsonValue.number f64_3_14)])
    (fun m => m) fmtTable "\x7b\"some_metric\": 3.14\x7d"
    [{ Metrics := [{ MetricName := "some_metric", MetricValue := f64_3_14, MetricType := "" }],
       Labels := [] }]
    (by decide)

/-! ## The adapters: further claims -/

/-- C11: in an invocation of either adapter that finds the mutex free, the
adapter writes status 400 when the routing token is empty (whatever the body
is), status 500 with the error text when reading the body fails, status 400
when the parser fails, and nothing when it calls `next`; it never writes more
than one status, and never one other than 400 or 500. -/
theorem C11_failure_status_codes (unmarshalReq : String → Except String RbdPushReq)
    (unmarshalMap : String → Except String GoMap)
    (rangeOrder : GoMap → List (String × JsonValue)) (fmtV : Float64 → String)
    (st : AdapterState) (r : Request) (params : Params) (hfree : st.locked = false) :
    (∃ res, RbdPush unmarshalReq fmtV st r params = some res
      ∧ (ByName params "job" = "" → res.httpErrors = [("job name is required", 400)])
      ∧ (ByName params "job" ≠ "" → ∀ err, r.Body = Except.error err →
          res.httpErrors = [(err, 500)])
      ∧ (ByName params "job" ≠ "" → ∀ body err, r.Body = Except.ok body →
          parseBodyToRbdPushReq unmarshalReq body = Except.error err →
          res.httpErrors = [("bad request", 400)])
      ∧ (res.nextCall.isSome = true → res.httpErrors = [])
      ∧ res.httpErrors.length ≤ 1
      ∧ (∀ e ∈ res.httpErrors, e.2 = 400 ∨ e.2 = 500))
    ∧ (∃ res, Telecom5Push unmarshalMap rangeOrder fmtV st r params = some res
      ∧ (ByName params "identify" = "" → res.httpErrors = [("identify is required", 400)])
      ∧ (ByName params "identify" ≠ "" → ∀ err, r.Body = Except.error err →
          res.httpErrors = [(err, 500)])
      ∧ (ByName params "identify" ≠ "" → ∀ body err, r.Body = Except.ok body →
          telecom5BodyToRbdPushReq unmarshalMap rangeOrder body = Except.error err →
          res.httpErrors = [("bad request", 400)])
      ∧ (res.nextCall.isSome = true → res.httpErrors = [])
      ∧ res.httpErrors.length ≤ 1
      ∧ (∀ e ∈ res.httpErrors, e.2 = 400 ∨ e.2 = 500)) := by
  constructor
  · refine ⟨_, RbdPush_of_free unmarshalReq fmtV st r params hfree, ?_⟩
    by_cases hjob : ByName params "job" = ""
    · simp [rbdHandler, hjob]
    · cases hb : r.Body with
      | error err => simp [rbdHandler, hjob, hb]
      | ok body =>
        cases hp : parseBodyToRbdPushReq unmarshalReq body with
        | error err => simp [rbdHandler, hjob, hb, hp]
        | ok req =>
          simp [rbdHandler, hjob, hb, hp]
          intro body2 err hbody herr
          rw [← hbody, hp] at herr
          cases herr
  · refine ⟨_, Telecom5Push_of_free unmarshalMap rangeOrder fmtV st r params hfree, ?_⟩
    by_cases hid : ByName params "identify" = ""
    · simp [telecom5Handler, hid]
    · cases hb : r.Body with
      | error err => simp [telecom5Handler, hid, hb]
      | ok body =>
        cases hp : telecom5BodyToRbdPushReq unmarshalMap rangeOrder body with
        | error err => simp [telecom5Handler, hid, hb, hp]
        | ok reqs =>
          simp [telecom5Handler, hid, hb, hp]
          intro body2 err hbody herr
          rw [← hbody, hp] at herr
          cases herr

/-- C11 at a request without routing token, received while the mutex is free:
both adapters answer 400. -/
theorem C11_failure_status_codes_witness :
    (∃ res, RbdPush sampleUnmarshalReq fmtTable { ps := [], locked := false } sampleRequest []
        = some res
      ∧ (ByName [] "job" = "" → res.httpErrors = [("job name is required", 400)])
      ∧ (ByName [] "job" ≠ "" → ∀ err, sampleRequest.Body = Except.error err →
          res.httpErrors = [(err, 500)])
      ∧ (ByName [] "job" ≠ "" → ∀ body err, sampleRequest.Body = Except.ok body →
          parseBodyToRbdPushReq sampleUnmarshalReq body = Except.error err →
          res.httpErrors = [("bad request", 400)])
      ∧ (res.nextCall.isSome = true → res.httpErrors = [])
      ∧ res.httpErrors.length ≤ 1
      ∧ (∀ e ∈ res.httpErrors, e.2 = 400 ∨ e.2 = 500))
    ∧ (∃ res, Telecom5Push sampleUnmarshalMap (fun m => m) fmtTable
          { ps := [], locked := false } sampleRequest [] = some res
      ∧ (ByName [] "identify" = "" → res.httpErrors = [("identify is required", 400)])
      ∧ (ByName [] "identify" ≠ "" → ∀ err, sampleRequest.Body = Except.error err →
          res.httpErrors = [(err, 500)])
      ∧ (ByName [] "identify" ≠ "" → ∀ body err, sampleRequest.Body = Except.ok body →
          telecom5BodyToRbdPushReq sampleUnmarshalMap (fun m => m) body = Except.error err →
          res.httpErrors = [("bad request", 400)])
      ∧ (res.nextCall.isSome = true → res.httpErrors = [])
      ∧ res.httpErrors.length ≤ 1
      ∧ (∀ e ∈ res.httpErrors, e.2 = 400 ∨ e.2 = 500)) :=
  C11_failure_status_codes sampleUnmarshalReq sampleUnmarshalMap (fun m => m) fmtTable
    { ps := [], locked := false } sampleRequest [] rfl

/-- C12: when an invocation that finds the mutex free calls `next`, the
request it hands over is the received one with a new `Body` (`RbdPush`), or
with a new `Body` and `RequestURI` set to `/metrics/job/telecom5`
(`Telecom5Push`), every other field as received; the parameters handed over
are the ones the adapter was called with. -/
theorem C12_forwarded_request_frame (unmarshalReq : String → Except String RbdPushReq)
    (unmarshalMap : String → Except String GoMap)
    (rangeOrder : GoMap → List (String × JsonValue)) (fmtV : Float64 → String)
    (stA : AdapterState) (rA : Request) (paramsA : Params) (resA : HandlerResult)
    (fwdA : Request) (psA : Params)
    (stB : AdapterState) (rB : Request) (paramsB : Params) (resB : HandlerResult)
    (fwdB : Request) (psB : Params)
    (hA : RbdPush unmarshalReq fmtV stA rA paramsA = some resA)
    (hnextA : resA.nextCall = some (fwdA, psA))
    (hB : Telecom5Push unmarshalMap rangeOrder fmtV stB rB paramsB = some resB)
    (hnextB : resB.nextCall = some (fwdB, psB)) :
    (fwdA = { rA with Body := fwdA.Body } ∧ psA = paramsA)
    ∧ (fwdB = { rB with Body := fwdB.Body, RequestURI := "/metrics/job/telecom5" }
        ∧ psB = paramsB) := by
  constructor
  · unfold RbdPush at hA
    split at hA
    · cases hA
    · have hres := Option.some.inj hA
      rw [← hres] at hnextA
      by_cases hjob : ByName paramsA "job" = ""
      · simp [rbdHandler, hjob] at hnextA
      · cases hb : rA.Body with
        | error err => simp [rbdHandler, hjob, hb] at hnextA
        | ok body =>
          cases hp : parseBodyToRbdPushReq unmarshalReq body with
          | error err => simp [rbdHandler, hjob, hb, hp] at hnextA
          | ok req =>
            simp [rbdHandler, hjob, hb, hp] at hnextA
            obtain ⟨h1, h2⟩ := hnextA
            subst h1
            exact ⟨rfl, h2.symm⟩
  · unfold Telecom5Push at hB
    split at hB
    · cases hB
    · have hres := Option.some.inj hB
      rw [← hres] at hnextB
      by_cases hid : ByName paramsB "identify" = ""
      · simp [telecom5Handler, hid] at hnextB
      · cases hb : rB.Body with
        | error err => simp [telecom5Handler, hid, hb] at hnextB
        | ok body =>
          cases hp : telecom5BodyToRbdPushReq unmarshalMap rangeOrder body with
          | error err => simp [telecom5Handler, hid, hb, hp] at hnextB
          | ok reqs =>
            simp [telecom5Handler, hid, hb, hp] at hnextB
            obtain ⟨h1, h2⟩ := hnextB
            subst h1
            exact ⟨rfl, h2.symm⟩

/-- C12 at the sample request with job `j1` and device `d1`, received while
the mutex is free: both adapters call `next`, with the request changed in
`Body` (and `RequestURI`) only and with the parameters received. -/
theorem C12_forwarded_request_frame_witness :
    (Option.bind
        (RbdPush sampleUnmarshalReq fmtTable { ps := [], locked := false } sampleRequest
          [("job", "j1")])
        (fun res => res.nextCall)
      = some ({ sampleRequest with Body := Except.ok "some_metric\x7bjob=\"j1\"\x7d 3.14\n" },
          [("job", "j1")]))
    ∧ (Option.bind
        (Telecom5Push sampleUnmarshalMap (fun m => m) fmtTable { ps := [], locked := false }
          sampleRequest [("identify", "d1")])
        (fun res => res.nextCall)
      = some ({ sampleRequest with
                Body := Except.ok "some_metric\x7bidentify=\"d1\"\x7d 3.14\n",
                RequestURI := "/metrics/job/telecom5" },
          [("identify", "d1")]))
    ∧ ((({ sampleRequest with
            Body := Except.ok "some_metric\x7bjob=\"j1\"\x7d 3.14\n" } : Request)
          = { sampleRequest with Body := Except.ok "some_metric\x7bjob=\"j1\"\x7d 3.14\n" }
        ∧ [("job", "j1")] = [("job", "j1")])
      ∧ (({ sampleRequest with
              Body := Except.ok "some_metric\x7bidentify=\"d1\"\x7d 3.14\n",
              RequestURI := "/metrics/job/telecom5" } : Request)
          = { sampleRequest with
              Body := Except.ok "some_metric\x7bidentify=\"d1\"\x7d 3.14\n",
              RequestURI := "/metrics/job/telecom5" }
        ∧ [("identify", "d1")] = [("identify", "d1")])) :=
  ⟨by decide, by decide,
   C12_forwarded_request_frame sampleUnmarshalReq sampleUnmarshalMap (fun m => m) fmtTable
    { ps := [], locked := false } sampleRequest [("job", "j1")]
    (rbdHandler sampleUnmarshalReq fmtTable { ps := [("job", "j1")], locked := true }
      sampleRequest)
    { sampleRequest with Body := Except.ok "some_metric\x7bjob=\"j1\"\x7d 3.14\n" }
    [("job", "j1")]
    { ps := [], locked := false } sampleRequest [("identify", "d1")]
    (telecom5Handler sampleUnmarshalMap (fun m => m) fmtTable
      { ps := [("identify", "d1")], locked := true } sampleRequest)
    { sampleRequest with
      Body := Except.ok "some_metric\x7bidentify=\"d1\"\x7d 3.14\n",
      RequestURI := "/metrics/job/telecom5" }
    [("identify", "d1")]
    (by decide) (by decide) (by decide) (by decide)⟩

/-- C14 (the code at the failing input): a first request without a routing
token, received while the mutex is free, returns with the mutex still held;
the next request, whatever it carries, never gets past `mtx.Lock()`.  The same
in both adapters. -/
theorem C14_empty_token_leaves_mutex_locked :
    Option.map (fun res => res.state.locked)
        (RbdPush (fun _ => Except.ok { Metrics := [], Labels := [] }) fmtTable
          { ps := [], locked := false }
          { Method := "POST", Header := [], Body := Except.ok "\x7b\x7d", RequestURI := "/a" }
          [])
      = some true
    ∧ Option.bind
        (RbdPush (fun _ => Except.ok { Metrics := [], Labels := [] }) fmtTable
          { ps := [], locked := false }
          { Method := "POST", Header := [], Body := Except.ok "\x7b\x7d", RequestURI := "/a" }
          [])
        (fun res =>
          RbdPush (fun _ => Except.ok { Metrics := [], Labels := [] }) fmtTable res.state
            { Method := "POST", Header := [], Body := Except.ok "\x7b\x7d", RequestURI := "/b" }
            [("job", "j1")])
      = none
    ∧ Option.map (fun res => res.state.locked)
        (Telecom5Push (fun _ => Except.ok [("some_metric", JsonValue.number f64_3_14)])
          (fun m => m) fmtTable { ps := [], locked := false }
          { Method := "POST", Header := [], Body := Except.ok "\x7b\x7d", RequestURI := "/a" }
          [])
      = some true
    ∧ Option.bind
        (Telecom5Push (fun _ => Except.ok [("some_metric", JsonValue.number f64_3_14)])
          (fun m => m) fmtTable { ps := [], locked := false }
          { Method := "POST", Header := [], Body := Except.ok "\x7b\x7d", RequestURI := "/a" }
          [])
        (fun res =>
          Telecom5Push (fun _ => Except.ok [("some_metric", JsonValue.number f64_3_14)])
            (fun m => m) fmtTable res.state
            { Method := "POST", Header := [], Body := Except.ok "\x7b\x7d", RequestURI := "/b" }
            [("identify", "d1")])
      = none := by
  decide

/-! ## The structured parser: claims -/

/-- C13 (as stated, refuted): the body `{"metrics":0}` is a valid JSON object,
and `parseBodyToRbdPushReq` fails on it, `metrics` being declared a slice. -/
theorem C13_wrong_kind_counterexample :
    Except.toBool
        (parseBodyToRbdPushReq
          (unmarshalRbdPushReq
            (fun _ => some (JsonValue.object [("metrics", JsonValue.number f64_zero)])))
          "\x7b\"metrics\":0\x7d")
      = false := by
  decide

/-- C13 (amended): for every body that is a JSON object matching the schema
(`metrics` and `labels`, when present, are arrays of objects, whose
`metric_name`, `metric_type`, `key` and `value`, when present, are strings and
whose `metric_value`, when present, is a number), `parseBodyToRbdPushReq`
succeeds, and absent parts are defaults: a missing `metrics` or `labels` gives
the empty list, a missing `metric_name`, `metric_value` or `metric_type` gives
the empty string, zero and the empty string. -/
theorem C13_absent_parts_are_defaults (parseJSON : String → Option JsonValue) (body : String)
    (fields : List (String × JsonValue))
    (hparse : parseJSON body = some (JsonValue.object fields))
    (hschema : MatchesSchema fields) :
    parseBodyToRbdPushReq (unmarshalRbdPushReq parseJSON) body
        = Except.ok
            { Metrics := (itemsOf (fieldOf fields "metrics")).map metricOfEntry,
              Labels := (itemsOf (fieldOf fields "labels")).map labelOfEntry }
    ∧ (fieldOf fields "metrics" = none →
        (itemsOf (fieldOf fields "metrics")).map metricOfEntry = [])
    ∧ (fieldOf fields "labels" = none →
        (itemsOf (fieldOf fields "labels")).map labelOfEntry = [])
    ∧ (∀ entry : List (String × JsonValue), fieldOf entry "metric_name" = none →
        (metricOfEntry (JsonValue.object entry)).MetricName = "")
    ∧ (∀ entry : List (String × JsonValue), fieldOf entry "metric_value" = none →
        (metricOfEntry (JsonValue.object entry)).MetricValue = f64_zero)
    ∧ (∀ entry : List (String × JsonValue), fieldOf entry "metric_type" = none →
        (metricOfEntry (JsonValue.object entry)).MetricType = "") := by
  refine ⟨?_, ?_, ?_, ?_, ?_, ?_⟩
  · simp only [parseBodyToRbdPushReq, unmarshalRbdPushReq, hparse, decodeRbdPushReq,
      decodeSliceField_of_ok decodeMetric metricEntryOk metricOfEntry decodeMetric_of_ok _
        hschema.1,
      decodeSliceField_of_ok decodeLabel labelEntryOk labelOfEntry decodeLabel_of_ok _
        hschema.2]
  · intro h; rw [h]; rfl
  · intro h; rw [h]; rfl
  · intro entry h; simp [metricOfEntry, h, stringOrDefault]
  · intro entry h; simp [metricOfEntry, h, numberOrDefault]
  · intro entry h; simp [metricOfEntry, h, stringOrDefault]

/-- C13 (amended) at the body `{}`, which gives no metrics and no labels, and
at the body `{"metrics":[{"metric_name":"some_metric"}]}`, whose metric gets
the value zero and the empty type. -/
theorem C13_absent_parts_are_defaults_witness :
    parseBodyToRbdPushReq (unmarshalRbdPushReq (fun _ => some (JsonValue.object [])))
        "\x7b\x7d"
      = Except.ok { Metrics := [], Labels := [] }
    ∧ parseBodyToRbdPushReq
        (unmarshalRbdPushReq (fun _ => some (JsonValue.object
          [("metrics", JsonValue.array
            [JsonValue.object [("metric_name", JsonValue.string "some_metric")]])])))
        "\x7b\"metrics\":[\x7b\"metric_name\":\"some_metric\"\x7d]\x7d"
      = Except.ok
          { Metrics := [{ MetricName := "some_metric", MetricValue := f64_zero,
                          MetricType := "" }],
            Labels := [] } :=
  ⟨(C13_absent_parts_are_defaults (fun _ => some (JsonValue.object [])) "\x7b\x7d" []
      rfl (by decide)).1,
   (C13_absent_parts_are_defaults
      (fun _ => some (JsonValue.object
        [("metrics", JsonValue.array
          [JsonValue.object [("metric_name", JsonValue.string "some_metric")]])]))
      "\x7b\"metrics\":[\x7b\"metric_name\":\"some_metric\"\x7d]\x7d"
      [("metrics", JsonValue.array
        [JsonValue.object [("metric_name", JsonValue.string "some_metric")]])]
      rfl (by decide)).1⟩

end Pushgateway
